import Mathlib

/-!
# Graceful drain helper (`graceful.go`)

A small-step model of the two entry points `Drain` and `DrainWithContext`.

Each call creates the channel `idleConns`, spawns one listener goroutine and
returns the channel.  The model starts right after the `go` statement: the
listener is at its first statement and the caller has not returned yet.  The
environment (caller, operating system, owner of `ctx`, the server) and the
listener goroutine interleave freely; an execution is a list of events and the
listener only moves on a `listen` event that finds it unblocked.

Errors are kept by their text (`none` is nil), log output by the message of
each `log` call, and the server by the moments its `Shutdown` is called and
returns.
-/

namespace Graceful

/-- An operating-system signal: `syscall.SIGTERM`, `os.Interrupt`, or any other
signal number. -/
inductive Signal where
  | SIGTERM
  | Interrupt
  | other (n : Nat)
  deriving DecidableEq, Repr

/-- The rendering of a signal by `%v`. -/
def Signal.text : Signal → String
  | .SIGTERM => "terminated"
  | .Interrupt => "interrupt"
  | .other n => "signal " ++ toString n

/-- The signal set of `signal.Notify(q, syscall.SIGTERM, os.Interrupt)`. -/
def notified : Signal → Bool
  | .SIGTERM => true
  | .Interrupt => true
  | .other _ => false

/-- A context value of the program: `context.Background()` or the parameter
`ctx` of `DrainWithContext`. -/
inductive Context where
  | background
  | param
  deriving DecidableEq, Repr

/-- The four `log` statements of the file, with their argument. -/
inductive LogLine where
  /-- Line 21: `log.Println("[graceful] Starting shutdown sequence")`. -/
  | starting
  /-- Line 40: `log.Printf("[graceful] Shutting down due to signal: %v", signal)`. -/
  | dueToSignal (sig : Signal)
  /-- Line 42: `log.Printf("[graceful] Shutting down due to ctx: %v", ctx.Err())`. -/
  | dueToCtx (err : Option String)
  /-- Lines 23 and 46: `log.Printf("[graceful] Could not shutdown gracefully: %v", err)`. -/
  | couldNot (err : String)
  deriving DecidableEq, Repr

/-- The message text of a log statement (`%v` of a nil error prints `<nil>`). -/
def LogLine.text : LogLine → String
  | .starting => "[graceful] Starting shutdown sequence"
  | .dueToSignal sig => "[graceful] Shutting down due to signal: " ++ sig.text
  | .dueToCtx err => "[graceful] Shutting down due to ctx: " ++ err.getD "<nil>"
  | .couldNot err => "[graceful] Could not shutdown gracefully: " ++ err

/-- Is this the line that reports a `Shutdown` error? -/
def LogLine.isCouldNot : LogLine → Bool
  | .couldNot _ => true
  | _ => false

/-- The externally visible actions of the listener, in the order they happen. -/
inductive Action where
  | log (l : LogLine)
  /-- The listener calls `srv.Shutdown(c)`. -/
  | shutdownCall (c : Context)
  /-- The call `srv.Shutdown` returns `err` (`none` is nil). -/
  | shutdownReturn (err : Option String)
  /-- The statement `close(idleConns)`. -/
  | closeIdle
  deriving DecidableEq, Repr

/-- The program counter of the listener goroutine.  `recv` and `logStart`
belong to `Drain`; `select`, `logSignal` and `logCtx` to `DrainWithContext`. -/
inductive PC where
  /-- About to run `q := make(chan os.Signal, 1)` (lines 18, 34). -/
  | makeQ
  /-- About to run `signal.Notify(q, syscall.SIGTERM, os.Interrupt)` (lines 19, 35). -/
  | notify
  /-- At `<-q` (line 20). -/
  | recv
  /-- About to run the `log.Println` of line 21. -/
  | logStart
  /-- At the `select` of line 38. -/
  | select
  /-- Case `signal := <-q` was taken; about to run line 40. -/
  | logSignal (sig : Signal)
  /-- Case `<-ctx.Done()` was taken; about to run line 42. -/
  | logCtx
  /-- About to call `srv.Shutdown(context.Background())` (lines 22, 45). -/
  | callShutdown
  /-- Inside `srv.Shutdown`, waiting for it to return. -/
  | inShutdown
  /-- The call returned `err`; about to test `err != nil` (lines 22-24, 45-47). -/
  | checkErr (err : Option String)
  /-- About to run `close(idleConns)` (lines 25, 48). -/
  | closeIdle
  /-- The goroutine has ended. -/
  | exited
  deriving DecidableEq, Repr

/-- The state of one `Drain` or `DrainWithContext` call. -/
structure State where
  /-- The listener's next statement. -/
  pc : PC
  /-- The caller has executed `return idleConns`. -/
  returned : Bool
  /-- The call `signal.Notify` has registered `q`. -/
  subscribed : Bool
  /-- The buffer of `q`, a channel of capacity 1. -/
  q : Option Signal
  /-- The value of `ctx.Err()`: `none` while `ctx` is not done. -/
  ctxErr : Option String
  /-- The channel `idleConns` has been closed. -/
  idleClosed : Bool
  /-- The listener has panicked (closing a closed channel panics). -/
  panicked : Bool
  /-- The listener's actions so far, oldest first. -/
  obs : List Action
  deriving DecidableEq, Repr

/-- What can happen to a call, one event at a time. -/
inductive Event where
  /-- The caller executes `return idleConns` (lines 27, 50). -/
  | ret
  /-- The operating system raises `sig` for the process. -/
  | signal (sig : Signal)
  /-- The context `ctx` becomes done with error `err`. -/
  | cancel (err : String)
  /-- The listener goroutine is scheduled for one statement; `pickCtx` is the
  choice a `select` makes when both of its cases can proceed. -/
  | listen (pickCtx : Bool)
  /-- The server's `Shutdown` returns `err`. -/
  | shutdownDone (err : Option String)
  deriving DecidableEq, Repr

/-- Is this a scheduling of the listener? -/
def Event.isListen : Event → Bool
  | .listen _ => true
  | _ => false

/-- Is this the raising of a signal of the `Notify` set? -/
def Event.isNotifiedSignal : Event → Bool
  | .signal sig => notified sig
  | _ => false

/-- Is this a cancellation of `ctx`? -/
def Event.isCancel : Event → Bool
  | .cancel _ => true
  | _ => false

/-- The number of times the listener is scheduled in a trace. -/
def listens (tr : List Event) : Nat :=
  tr.countP Event.isListen

/-- Package `signal` relays a raised signal to a registered channel with a
non-blocking send: it is stored when the channel is registered for it and its
buffer has room, and dropped otherwise.  A signal raised while `q` is not
registered, or one outside the `Notify` set, never reaches `q`; what the
runtime does with it is not the business of this file. -/
def deliver (s : State) (sig : Signal) : State :=
  if s.subscribed && notified sig then
    match s.q with
    | none => { s with q := some sig }
    | some _ => s
  else s

/-- The context `ctx` becomes done; the first error stays. -/
def cancelCtx (s : State) (err : String) : State :=
  match s.ctxErr with
  | none => { s with ctxErr := some err }
  | some _ => s

/-- The call `srv.Shutdown` returns: only a listener inside the call sees it. -/
def shutdownReturns (s : State) (err : Option String) : State :=
  match s.pc with
  | .inShutdown => { s with pc := .checkErr err, obs := s.obs ++ [.shutdownReturn err] }
  | _ => s

/-- The statement `if err != nil { log.Printf(...) }` of lines 22-24 and 45-47:
the line reporting the error of a failed `Shutdown`, nothing for nil. -/
def errorReport : Option String → List Action
  | some e => [.log (.couldNot e)]
  | none => []

/-- The statements shared by both listeners, from the call of `Shutdown` on
(lines 22-25 and 45-48). -/
def shutdownAndClose (s : State) : State :=
  match s.pc with
  | .callShutdown =>
    { s with pc := .inShutdown, obs := s.obs ++ [.shutdownCall .background] }
  | .checkErr err => { s with pc := .closeIdle, obs := s.obs ++ errorReport err }
  | .closeIdle =>
    if s.idleClosed then { s with pc := .exited, panicked := true }
    else { s with pc := .exited, idleClosed := true, obs := s.obs ++ [.closeIdle] }
  | _ => s

/-- The state right after the `go` statement of either entry point; `ctxErr` is
the state of the context given to `DrainWithContext` (`none` for `Drain`). -/
def initState (ctxErr : Option String) : State :=
  { pc := .makeQ, returned := false, subscribed := false, q := none,
    ctxErr := ctxErr, idleClosed := false, panicked := false, obs := [] }

namespace Drain

/-- One statement of the listener of `Drain` (lines 17-26). -/
def listener (s : State) : State :=
  match s.pc with
  | .makeQ => { s with pc := .notify, q := none }
  | .notify => { s with pc := .recv, subscribed := true }
  | .recv =>
    match s.q with
    | some _ => { s with pc := .logStart, q := none }
    | none => s
  | .logStart => { s with pc := .callShutdown, obs := s.obs ++ [.log .starting] }
  | _ => shutdownAndClose s

/-- One event of a `Drain` call.  `Drain` has no context, so a cancellation is
nothing to it. -/
def step (s : State) : Event → State
  | .ret => { s with returned := true }
  | .signal sig => deliver s sig
  | .cancel _ => s
  | .listen _ => listener s
  | .shutdownDone err => shutdownReturns s err

/-- The state of `Drain(srv)` right after its `go` statement. -/
def init : State := initState none

/-- The state after a trace of events. -/
def run (tr : List Event) : State :=
  tr.foldl step init

end Drain

namespace DrainWithContext

/-- One statement of the listener of `DrainWithContext` (lines 33-49). -/
def listener (s : State) (pickCtx : Bool) : State :=
  match s.pc with
  | .makeQ => { s with pc := .notify, q := none }
  | .notify => { s with pc := .select, subscribed := true }
  | .select =>
    match s.q, s.ctxErr with
    | some sig, none => { s with pc := .logSignal sig, q := none }
    | none, some _ => { s with pc := .logCtx }
    | some sig, some _ =>
      if pickCtx then { s with pc := .logCtx }
      else { s with pc := .logSignal sig, q := none }
    | none, none => s
  | .logSignal sig =>
    { s with pc := .callShutdown, obs := s.obs ++ [.log (.dueToSignal sig)] }
  | .logCtx =>
    { s with pc := .callShutdown, obs := s.obs ++ [.log (.dueToCtx s.ctxErr)] }
  | _ => shutdownAndClose s

/-- One event of a `DrainWithContext` call. -/
def step (s : State) : Event → State
  | .ret => { s with returned := true }
  | .signal sig => deliver s sig
  | .cancel err => cancelCtx s err
  | .listen pickCtx => listener s pickCtx
  | .shutdownDone err => shutdownReturns s err

/-- The state of `DrainWithContext(ctx, srv)` right after its `go` statement,
for a context whose `Err()` is `ctxErr` at that time. -/
def init (ctxErr : Option String) : State := initState ctxErr

/-- The state after a trace of events. -/
def run (ctxErr : Option String) (tr : List Event) : State :=
  tr.foldl step (init ctxErr)

end DrainWithContext

/-- The arguments of the `srv.Shutdown` calls made so far. -/
def State.shutdownArgs (s : State) : List Context :=
  s.obs.filterMap fun a => match a with
    | .shutdownCall c => some c
    | _ => none

/-- The results of the `srv.Shutdown` calls that have returned. -/
def State.shutdownResults (s : State) : List (Option String) :=
  s.obs.filterMap fun a => match a with
    | .shutdownReturn r => some r
    | _ => none

/-- The log statements executed so far. -/
def State.logLines (s : State) : List LogLine :=
  s.obs.filterMap fun a => match a with
    | .log l => some l
    | _ => none

/-- The number of `close(idleConns)` executed so far. -/
def State.closes (s : State) : Nat :=
  s.obs.count .closeIdle

/-- Is the context `c` done in state `s`?  The background context never is. -/
def Context.done (s : State) : Context → Bool
  | .background => false
  | .param => s.ctxErr.isSome

/-- An observer's receive `<-idleConns`: nothing is ever sent on the channel,
so the receive returns (with the zero value) exactly when the channel is
closed, and blocks otherwise. -/
def State.observerReleased (s : State) : Bool :=
  s.idleClosed

/-- The actions of a listener that ran to its end: `t` is the line logged for
the trigger and `r` the result of `Shutdown`. -/
def script (t : LogLine) (r : Option String) : List Action :=
  [.log t, .shutdownCall .background, .shutdownReturn r] ++ errorReport r ++ [.closeIdle]

/-- What holds from the call of `Shutdown` on, for a listener that logged `t`
for its trigger: the actions so far are the matching part of `script`. -/
def tailInv (t : LogLine) (s : State) : Prop :=
  match s.pc with
  | .callShutdown => s.obs = [.log t] ∧ s.idleClosed = false
  | .inShutdown => s.obs = [.log t, .shutdownCall .background] ∧ s.idleClosed = false
  | .checkErr r =>
    s.obs = [.log t, .shutdownCall .background, .shutdownReturn r] ∧ s.idleClosed = false
  | .closeIdle =>
    ∃ r, s.obs = [.log t, .shutdownCall .background, .shutdownReturn r] ++ errorReport r
      ∧ s.idleClosed = false
  | .exited => ∃ r, s.obs = script t r ∧ s.idleClosed = true
  | _ => False

/-- The invariant of a `Drain` call: the program counter determines what has
been done so far. -/
def Drain.Inv (s : State) : Prop :=
  s.panicked = false ∧ (∀ sig, s.q = some sig → notified sig = true) ∧
  match s.pc with
  | .makeQ => s.obs = [] ∧ s.subscribed = false ∧ s.q = none ∧ s.idleClosed = false
  | .notify => s.obs = [] ∧ s.subscribed = false ∧ s.q = none ∧ s.idleClosed = false
  | .recv => s.obs = [] ∧ s.subscribed = true ∧ s.idleClosed = false
  | .logStart => s.obs = [] ∧ s.subscribed = true ∧ s.idleClosed = false
  | .select => False
  | .logSignal _ => False
  | .logCtx => False
  | _ => s.subscribed = true ∧ tailInv .starting s

/-- The lines `DrainWithContext` can log for its trigger in state `s`: a signal
of the `Notify` set, or the error of the done context. -/
def DrainWithContext.trigger (s : State) (t : LogLine) : Prop :=
  (∃ sig, notified sig = true ∧ t = .dueToSignal sig) ∨
    (s.ctxErr ≠ none ∧ t = .dueToCtx s.ctxErr)

/-- What holds of a `DrainWithContext` listener up to its log statement. -/
def DrainWithContext.headInv (s : State) : Prop :=
  s.obs = [] ∧ s.idleClosed = false ∧
  match s.pc with
  | .makeQ => s.subscribed = false ∧ s.q = none
  | .notify => s.subscribed = false ∧ s.q = none
  | .select => s.subscribed = true
  | .logSignal sig => s.subscribed = true ∧ notified sig = true
  | .logCtx => s.subscribed = true ∧ s.ctxErr ≠ none
  | _ => False

/-- The invariant of a `DrainWithContext` call. -/
def DrainWithContext.Inv (s : State) : Prop :=
  s.panicked = false ∧ (∀ sig, s.q = some sig → notified sig = true) ∧
  (DrainWithContext.headInv s ∨
    (s.subscribed = true ∧ ∃ t, DrainWithContext.trigger s t ∧ tailInv t s))

/-- The number of statements the listener still has to run before it is inside
`srv.Shutdown`, when nothing blocks it. -/
def PC.toCall : PC → Nat
  | .makeQ => 5
  | .notify => 4
  | .recv => 3
  | .select => 3
  | .logStart => 2
  | .logSignal _ => 2
  | .logCtx => 2
  | .callShutdown => 1
  | _ => 0

/-- The number of statements the listener still has to run once `srv.Shutdown`
has returned. -/
def PC.toExit : PC → Nat
  | .checkErr _ => 2
  | .closeIdle => 1
  | .exited => 0
  | _ => 3

/-- The number of statements the listener still has to run before `q` is
registered with `signal.Notify`. -/
def PC.toNotify : PC → Nat
  | .makeQ => 2
  | .notify => 1
  | _ => 0

/-- The states of the coordinator named by the specification. -/
inductive Phase where
  | listening
  | shuttingDown
  | completed
  deriving DecidableEq, Repr

/-- The position of a phase along `Listening -> ShuttingDown -> Completed`. -/
def Phase.index : Phase → Nat
  | .listening => 0
  | .shuttingDown => 1
  | .completed => 2

/-- The phase of the listener: it listens until it has received a trigger, is
shutting down until it has closed `idleConns`, and is completed after that. -/
def PC.phase : PC → Phase
  | .makeQ => .listening
  | .notify => .listening
  | .recv => .listening
  | .select => .listening
  | .exited => .completed
  | _ => .shuttingDown

/-- Does event `e`, happening in state `s`, deliver a trigger to a `Drain`
call?  Only a signal of the `Notify` set raised while `q` is registered. -/
def Drain.triggers (s : State) : Event → Bool
  | .signal sig => s.subscribed && notified sig
  | _ => false

/-- Does event `e`, happening in state `s`, deliver a trigger to a
`DrainWithContext` call?  A signal as for `Drain`, or the cancellation of `ctx`. -/
def DrainWithContext.triggers (s : State) : Event → Bool
  | .signal sig => s.subscribed && notified sig
  | .cancel _ => true
  | _ => false

/-- The lines logged for a `Shutdown` error. -/
def State.errorLines (s : State) : List LogLine :=
  s.logLines.filter LogLine.isCouldNot

/-- The lines logged for the trigger. -/
def State.triggerLines (s : State) : List LogLine :=
  s.logLines.filter fun l => !l.isCouldNot

/-- Forget the result of `Shutdown`: the value held by the listener and the
actions that show it. -/
def State.forgetResult (s : State) : State :=
  { s with
    pc := match s.pc with
      | .checkErr _ => .checkErr none
      | pc => pc
    obs := [] }

/-- Replace the line logged for the trigger by the line `Drain` logs. -/
def Action.blur : Action → Action
  | .log (.dueToSignal _) => .log .starting
  | .log (.dueToCtx _) => .log .starting
  | a => a

/-- The `Drain` state that corresponds to a `DrainWithContext` state: the
`select` is the receive, and the line logged for the trigger is `Drain`'s. -/
def State.toDrain (s : State) : State :=
  { s with
    pc := match s.pc with
      | .select => .recv
      | .logSignal _ => .logStart
      | .logCtx => .logStart
      | pc => pc
    obs := s.obs.map Action.blur }

/-- Forget which trigger the listener took: the content of `q`, the case the
`select` chose and the line logged for it. -/
def State.forgetTrigger (s : State) : State :=
  { s with
    pc := match s.pc with
      | .logSignal _ => .logCtx
      | pc => pc
    q := none
    obs := s.obs.map Action.blur }

/-- A trace without its signal events. -/
def dropSignals (tr : List Event) : List Event :=
  tr.filter fun e => match e with
    | .signal _ => false
    | _ => true

/-- A trigger is at hand for the listener of `Drain`: a signal waits in `q`, or
the listener is past its receive. -/
def Drain.armed (s : State) : Prop :=
  match s.pc with
  | .makeQ => False
  | .notify => False
  | .recv => s.q ≠ none
  | _ => True

/-- A trigger is at hand for the listener of `DrainWithContext`: `ctx` is done,
a signal waits in `q`, or the listener is past its `select`. -/
def DrainWithContext.armed (s : State) : Prop :=
  match s.pc with
  | .makeQ => s.ctxErr ≠ none
  | .notify => s.ctxErr ≠ none
  | .select => s.q ≠ none ∨ s.ctxErr ≠ none
  | _ => True

/-- What both invariants share: the listener has not panicked, and either it has
done nothing yet or it is on the common path from the call of `Shutdown` on. -/
def Norm (s : State) : Prop :=
  s.panicked = false ∧
    ((s.obs = [] ∧ s.idleClosed = false ∧ 2 ≤ s.pc.toCall) ∨
      ∃ t, t.isCouldNot = false ∧ tailInv t s)

/-- The channel `idleConns` is closed at most once, and only in a state in which
`srv.Shutdown` has been called once and has returned: the actions are then the
whole `script`, whose last action is the close, after the return. -/
def ClosedAfterReturn (s : State) : Prop :=
  s.closes ≤ 1 ∧ (s.idleClosed = true ↔ s.closes = 1) ∧
    (s.idleClosed = true →
      s.shutdownArgs.length = 1 ∧ s.shutdownResults.length = 1 ∧ ∃ t r, s.obs = script t r) ∧
    (s.observerReleased = true → s.shutdownResults.length = 1)

/-- The lines that a `Shutdown` returning `r` must leave in the log: one line
with the error for a failure, none for nil. -/
def expectedErrorLines : Option String → List LogLine
  | some e => [.couldNot e]
  | none => []

/-- No trigger has reached a `Drain` listener: `q` is empty and the listener
has not got past its receive. -/
def Drain.quiet (s : State) : Prop :=
  s.q = none ∧ s.pc.phase = .listening

/-- No trigger has reached a `DrainWithContext` listener: `q` is empty, `ctx` is
not done and the listener has not got past its `select`. -/
def DrainWithContext.quiet (s : State) : Prop :=
  s.q = none ∧ s.ctxErr = none ∧ s.pc.phase = .listening

/-- The completion of a call whose state after a trace is given by `run` is
one-shot and durable, seen at a trace `tr`, a next event `e` and any
continuation `tr2`: the phase moves forward by at most one position per event;
it becomes `completed` only by the statement `close(idleConns)`, run by the
listener on an open channel; it is `completed` exactly when the channel is
closed, which is when a waiting observer is released; and once `completed` it
stays so, with the channel closed once and every observer released at once. -/
def OneShot (run : List Event → State) (tr : List Event) (e : Event) (tr2 : List Event) :
    Prop :=
  (run tr).pc.phase.index ≤ (run (tr ++ [e])).pc.phase.index ∧
  (run (tr ++ [e])).pc.phase.index ≤ (run tr).pc.phase.index + 1 ∧
  ((run (tr ++ [e])).pc.phase = .completed → (run tr).pc.phase ≠ .completed →
    e.isListen = true ∧ (run tr).pc = .closeIdle ∧
      (run tr).observerReleased = false ∧ (run (tr ++ [e])).observerReleased = true ∧
      (run (tr ++ [e])).obs = (run tr).obs ++ [.closeIdle]) ∧
  ((run tr).pc.phase = .completed ↔ (run tr).idleClosed = true) ∧
  ((run tr).pc.phase = .completed →
    (run (tr ++ tr2)).pc.phase = .completed ∧ (run (tr ++ tr2)).observerReleased = true ∧
      (run (tr ++ tr2)).closes = 1)

/-- What holds of a `DrainWithContext` call as long as no signal of the `Notify`
set has been raised: `q` is empty, the `select` has not taken the signal case,
and a listener past its log statement has logged the error of `ctx`. -/
def DrainWithContext.unsignalled (s : State) : Prop :=
  s.q = none ∧
    ((DrainWithContext.headInv s ∧ ∀ sig, s.pc ≠ .logSignal sig) ∨
      (s.ctxErr ≠ none ∧ tailInv (.dueToCtx s.ctxErr) s))

/-- The `select` has taken the case `<-ctx.Done()` of a context whose error is
`E`: the listener is about to log that error, or has logged it. -/
def DrainWithContext.tookCtx (E : Option String) (s : State) : Prop :=
  s.ctxErr = E ∧ ((s.pc = .logCtx ∧ s.obs = []) ∨ tailInv (.dueToCtx E) s)

/-! ## The invariants hold in every reachable state -/

theorem foldl_inv {P : State → Prop} {Q : Event → Prop} {f : State → Event → State}
    (hstep : ∀ s e, P s → Q e → P (f s e)) :
    ∀ (tr : List Event) (s : State), P s → (∀ e ∈ tr, Q e) → P (tr.foldl f s) := by
  intro tr
  induction tr with
  | nil => intro s hs _; simpa using hs
  | cons e tr ih =>
    intro s hs hok
    rw [List.foldl_cons]
    exact ih _ (hstep s e hs (hok e (List.mem_cons_self _ _)))
      (fun a ha => hok a (List.mem_cons_of_mem _ ha))

theorem Drain.inv_step (s : State) (e : Event) (h : Drain.Inv s) : Drain.Inv (Drain.step s e) := by
  obtain ⟨pc, ret, sub, q, ctx, cl, pan, obs⟩ := s
  cases e with
  | ret => simpa [Drain.Inv, Drain.step, tailInv] using h
  | cancel err => simpa [Drain.step] using h
  | signal sig =>
    cases hn : notified sig <;> cases sub <;> cases q <;> cases pc <;>
      simp_all [Drain.Inv, Drain.step, deliver, tailInv]
  | shutdownDone err =>
    cases pc <;> simp_all [Drain.Inv, Drain.step, shutdownReturns, tailInv]
  | listen b =>
    cases pc <;> cases q <;> cases cl <;>
      simp_all [Drain.Inv, Drain.step, Drain.listener, shutdownAndClose, tailInv, script]
    · obtain ⟨_, _, r, hr⟩ := h
      exact ⟨r, by simp [hr]⟩
    · obtain ⟨_, _, _, r, hr⟩ := h
      exact ⟨r, by simp [hr]⟩

theorem tailInv_shutdownReturns {t : LogLine} {s : State} (err : Option String)
    (h : tailInv t s) : tailInv t (shutdownReturns s err) := by
  obtain ⟨pc, ret, sub, q, ctx, cl, pan, obs⟩ := s
  cases pc <;> simp_all [shutdownReturns, tailInv]

theorem tailInv_shutdownAndClose {t : LogLine} {s : State}
    (h : tailInv t s) : tailInv t (shutdownAndClose s) := by
  obtain ⟨pc, ret, sub, q, ctx, cl, pan, obs⟩ := s
  cases pc <;> cases cl <;> simp_all [shutdownAndClose, tailInv, script]
  obtain ⟨r, hr⟩ := h
  exact ⟨r, by simp [hr]⟩

theorem DrainWithContext.listener_tail {t : LogLine} {s : State} (b : Bool)
    (h : tailInv t s) : DrainWithContext.listener s b = shutdownAndClose s := by
  obtain ⟨pc, ret, sub, q, ctx, cl, pan, obs⟩ := s
  cases pc <;> simp_all [DrainWithContext.listener, tailInv]

theorem DrainWithContext.inv_head (s : State) (e : Event) (hp : s.panicked = false)
    (hq : ∀ sig, s.q = some sig → notified sig = true) (h : DrainWithContext.headInv s) :
    DrainWithContext.Inv (DrainWithContext.step s e) := by
  obtain ⟨pc, ret, sub, q, ctx, cl, pan, obs⟩ := s
  cases e with
  | ret => exact ⟨hp, hq, Or.inl h⟩
  | cancel err =>
    cases ctx <;> cases pc <;>
      simp_all [DrainWithContext.Inv, DrainWithContext.headInv, DrainWithContext.step, cancelCtx]
  | signal sig =>
    cases hn : notified sig <;> cases sub <;> cases q <;> cases pc <;>
      simp_all [DrainWithContext.Inv, DrainWithContext.headInv, DrainWithContext.step, deliver]
  | shutdownDone err =>
    cases pc <;>
      simp_all [DrainWithContext.Inv, DrainWithContext.headInv, DrainWithContext.step,
        shutdownReturns]
  | listen b =>
    cases pc <;> cases q <;> cases ctx <;> cases b <;>
      simp_all [DrainWithContext.Inv, DrainWithContext.headInv, DrainWithContext.step,
        DrainWithContext.listener, shutdownAndClose, tailInv, DrainWithContext.trigger]

theorem tailInv_frame {t : LogLine} {s s' : State} (hpc : s'.pc = s.pc) (hobs : s'.obs = s.obs)
    (hcl : s'.idleClosed = s.idleClosed) (h : tailInv t s) : tailInv t s' := by
  unfold tailInv at *
  rw [hpc, hobs, hcl]
  exact h

theorem deliver_frame (s : State) (sig : Signal) :
    (deliver s sig).pc = s.pc ∧ (deliver s sig).obs = s.obs ∧
      (deliver s sig).idleClosed = s.idleClosed ∧ (deliver s sig).panicked = s.panicked ∧
      (deliver s sig).subscribed = s.subscribed ∧ (deliver s sig).ctxErr = s.ctxErr ∧
      (deliver s sig).returned = s.returned := by
  unfold deliver
  split
  · split <;> simp
  · simp

theorem deliver_q (s : State) (sig : Signal)
    (hq : ∀ x, s.q = some x → notified x = true) :
    ∀ x, (deliver s sig).q = some x → notified x = true := by
  unfold deliver
  split
  · split <;> simp_all
  · exact hq

theorem cancelCtx_frame (s : State) (err : String) :
    (cancelCtx s err).pc = s.pc ∧ (cancelCtx s err).obs = s.obs ∧
      (cancelCtx s err).idleClosed = s.idleClosed ∧ (cancelCtx s err).panicked = s.panicked ∧
      (cancelCtx s err).subscribed = s.subscribed ∧ (cancelCtx s err).q = s.q ∧
      (cancelCtx s err).returned = s.returned := by
  unfold cancelCtx
  split <;> simp

theorem cancelCtx_ctxErr (s : State) (err : String) (h : s.ctxErr ≠ none) :
    (cancelCtx s err).ctxErr = s.ctxErr := by
  unfold cancelCtx
  split <;> simp_all

theorem shutdownReturns_frame (s : State) (err : Option String) :
    (shutdownReturns s err).idleClosed = s.idleClosed ∧
      (shutdownReturns s err).panicked = s.panicked ∧
      (shutdownReturns s err).subscribed = s.subscribed ∧
      (shutdownReturns s err).q = s.q ∧ (shutdownReturns s err).ctxErr = s.ctxErr ∧
      (shutdownReturns s err).returned = s.returned := by
  unfold shutdownReturns
  split <;> simp

theorem shutdownAndClose_frame (s : State) :
    (shutdownAndClose s).subscribed = s.subscribed ∧ (shutdownAndClose s).q = s.q ∧
      (shutdownAndClose s).ctxErr = s.ctxErr ∧ (shutdownAndClose s).returned = s.returned := by
  unfold shutdownAndClose
  split <;> (try split) <;> simp

theorem shutdownAndClose_panicked {t : LogLine} {s : State} (h : tailInv t s)
    (hp : s.panicked = false) : (shutdownAndClose s).panicked = false := by
  obtain ⟨pc, ret, sub, q, ctx, cl, pan, obs⟩ := s
  cases pc <;> cases cl <;> simp_all [shutdownAndClose, tailInv]

theorem DrainWithContext.trigger_frame {t : LogLine} {s s' : State} (h : s'.ctxErr = s.ctxErr)
    (ht : DrainWithContext.trigger s t) : DrainWithContext.trigger s' t := by
  unfold DrainWithContext.trigger at *
  rw [h]
  exact ht

theorem DrainWithContext.trigger_cancel {t : LogLine} {s : State} (err : String)
    (ht : DrainWithContext.trigger s t) : DrainWithContext.trigger (cancelCtx s err) t := by
  rcases ht with h | ⟨hc, h⟩
  · exact Or.inl h
  · exact Or.inr (by rw [cancelCtx_ctxErr s err hc]; exact ⟨hc, h⟩)

theorem DrainWithContext.inv_tail (s : State) (e : Event) (t : LogLine)
    (hp : s.panicked = false) (hq : ∀ sig, s.q = some sig → notified sig = true)
    (hs : s.subscribed = true) (ht : DrainWithContext.trigger s t) (h : tailInv t s) :
    DrainWithContext.Inv (DrainWithContext.step s e) := by
  cases e with
  | ret => exact ⟨hp, hq, Or.inr ⟨hs, t, ht, h⟩⟩
  | cancel err =>
    have hf := cancelCtx_frame s err
    refine ⟨by simpa [DrainWithContext.step, hf] using hp,
      by simpa [DrainWithContext.step, hf] using hq, Or.inr ⟨?_, t, ?_, ?_⟩⟩
    · simpa [DrainWithContext.step, hf] using hs
    · exact DrainWithContext.trigger_cancel err ht
    · exact tailInv_frame hf.1 hf.2.1 hf.2.2.1 h
  | signal sig =>
    have hf := deliver_frame s sig
    refine ⟨by simpa [DrainWithContext.step, hf] using hp, deliver_q s sig hq,
      Or.inr ⟨?_, t, ?_, ?_⟩⟩
    · simpa [DrainWithContext.step, hf] using hs
    · exact DrainWithContext.trigger_frame hf.2.2.2.2.2.1 ht
    · exact tailInv_frame hf.1 hf.2.1 hf.2.2.1 h
  | shutdownDone err =>
    have hf := shutdownReturns_frame s err
    refine ⟨by simpa [DrainWithContext.step, hf] using hp,
      by simpa [DrainWithContext.step, hf] using hq, Or.inr ⟨?_, t, ?_, ?_⟩⟩
    · simpa [DrainWithContext.step, hf] using hs
    · exact DrainWithContext.trigger_frame hf.2.2.2.2.1 ht
    · exact tailInv_shutdownReturns err h
  | listen b =>
    have hf := shutdownAndClose_frame s
    have hl : DrainWithContext.step s (.listen b) = shutdownAndClose s :=
      DrainWithContext.listener_tail b h
    rw [hl]
    refine ⟨shutdownAndClose_panicked h hp, by simpa [hf] using hq, Or.inr ⟨?_, t, ?_, ?_⟩⟩
    · simpa [hf] using hs
    · exact DrainWithContext.trigger_frame hf.2.2.1 ht
    · exact tailInv_shutdownAndClose h

theorem DrainWithContext.inv_step_ctx (s : State) (e : Event) (h : DrainWithContext.Inv s) :
    DrainWithContext.Inv (DrainWithContext.step s e) := by
  obtain ⟨hp, hq, hh | ⟨hs, t, ht, htail⟩⟩ := h
  · exact DrainWithContext.inv_head s e hp hq hh
  · exact DrainWithContext.inv_tail s e t hp hq hs ht htail

theorem Drain.inv_run (tr : List Event) : Drain.Inv (Drain.run tr) := by
  refine foldl_inv (P := Drain.Inv) (Q := fun _ => True)
    (fun s e hs _ => Drain.inv_step s e hs) tr Drain.init ?_ (fun _ _ => trivial)
  simp [Drain.Inv, Drain.init, initState]

theorem DrainWithContext.inv_run_ctx (c : Option String) (tr : List Event) :
    DrainWithContext.Inv (DrainWithContext.run c tr) := by
  refine foldl_inv (P := DrainWithContext.Inv) (Q := fun _ => True)
    (fun s e hs _ => DrainWithContext.inv_step_ctx s e hs) tr (DrainWithContext.init c) ?_
    (fun _ _ => trivial)
  simp [DrainWithContext.Inv, DrainWithContext.headInv, DrainWithContext.init, initState]

theorem Drain.norm {s : State} (h : Drain.Inv s) : Norm s := by
  obtain ⟨pc, ret, sub, q, ctx, cl, pan, obs⟩ := s
  cases pc <;> simp_all [Drain.Inv, Norm, PC.toCall]
  all_goals exact ⟨LogLine.starting, rfl, h.2.2.2⟩

theorem DrainWithContext.norm_ctx {s : State} (h : DrainWithContext.Inv s) : Norm s := by
  obtain ⟨hp, -, hh | ⟨-, t, htr, ht⟩⟩ := h
  · refine ⟨hp, Or.inl ?_⟩
    obtain ⟨pc, ret, sub, q, ctx, cl, pan, obs⟩ := s
    cases pc <;> simp_all [DrainWithContext.headInv, PC.toCall]
  · refine ⟨hp, Or.inr ⟨t, ?_, ht⟩⟩
    rcases htr with ⟨sig, -, rfl⟩ | ⟨-, rfl⟩ <;> rfl

theorem Drain.run_append (tr1 tr2 : List Event) :
    Drain.run (tr1 ++ tr2) = tr2.foldl Drain.step (Drain.run tr1) := by
  simp [Drain.run, List.foldl_append]

theorem DrainWithContext.run_append_ctx (c : Option String) (tr1 tr2 : List Event) :
    DrainWithContext.run c (tr1 ++ tr2)
      = tr2.foldl DrainWithContext.step (DrainWithContext.run c tr1) := by
  simp [DrainWithContext.run, List.foldl_append]

theorem Drain.inv_foldl (tr : List Event) (s : State) (h : Drain.Inv s) :
    Drain.Inv (tr.foldl Drain.step s) :=
  foldl_inv (P := Drain.Inv) (Q := fun _ => True) (fun s e hs _ => Drain.inv_step s e hs)
    tr s h (fun _ _ => trivial)

theorem DrainWithContext.inv_foldl_ctx (tr : List Event) (s : State)
    (h : DrainWithContext.Inv s) : DrainWithContext.Inv (tr.foldl DrainWithContext.step s) :=
  foldl_inv (P := DrainWithContext.Inv) (Q := fun _ => True)
    (fun s e hs _ => DrainWithContext.inv_step_ctx s e hs) tr s h (fun _ _ => trivial)

/-! ## Consequences of the invariant for the observable actions -/

theorem norm_cases {s : State} (h : Norm s) :
    s.panicked = false ∧
      ((s.obs = [] ∧ s.idleClosed = false ∧ 2 ≤ s.pc.toCall) ∨
        ∃ t, t.isCouldNot = false ∧
          ((s.pc = .callShutdown ∧ s.obs = [.log t] ∧ s.idleClosed = false) ∨
          (s.pc = .inShutdown ∧ s.obs = [.log t, .shutdownCall .background]
            ∧ s.idleClosed = false) ∨
          ∃ r,
            (s.pc = .checkErr r ∧
              s.obs = [.log t, .shutdownCall .background, .shutdownReturn r]
              ∧ s.idleClosed = false) ∨
            (s.pc = .closeIdle ∧
              s.obs = [.log t, .shutdownCall .background, .shutdownReturn r] ++ errorReport r
              ∧ s.idleClosed = false) ∨
            (s.pc = .exited ∧ s.obs = script t r ∧ s.idleClosed = true))) := by
  obtain ⟨hp, h | ⟨t, ht, h⟩⟩ := h
  · exact ⟨hp, Or.inl h⟩
  · refine ⟨hp, Or.inr ⟨t, ht, ?_⟩⟩
    obtain ⟨pc, ret, sub, q, ctx, cl, pan, obs⟩ := s
    cases pc <;> simp_all [tailInv]

theorem norm_args {s : State} (h : Norm s) :
    s.shutdownArgs.length ≤ 1 ∧ (∀ c ∈ s.shutdownArgs, c = Context.background) ∧
      (s.pc.toCall = 0 → s.shutdownArgs.length = 1) ∧
      (1 ≤ s.pc.toCall → s.shutdownArgs = [] ∧ s.idleClosed = false) := by
  obtain ⟨-, ⟨ho, hc, hn⟩ | ⟨t, ht, ⟨hpc, ho, hc⟩ | ⟨hpc, ho, hc⟩ |
    ⟨r, ⟨hpc, ho, hc⟩ | ⟨hpc, ho, hc⟩ | ⟨hpc, ho, hc⟩⟩⟩⟩ := norm_cases h
  · simp [State.shutdownArgs, ho, hc]
    omega
  all_goals try cases r
  all_goals simp [State.shutdownArgs, hpc, ho, hc, PC.toCall, errorReport, script]

/-! ## Progress of a scheduled listener -/

theorem listens_cons (e : Event) (tr : List Event) :
    listens (e :: tr) = listens tr + (if e.isListen = true then 1 else 0) := by
  simp [listens, List.countP_cons]

theorem Drain.armed_step (s : State) (e : Event) (hi : Drain.Inv s) (ha : Drain.armed s) :
    Drain.armed (Drain.step s e) ∧
      (Drain.step s e).pc.toCall ≤ s.pc.toCall - (if e.isListen = true then 1 else 0) := by
  obtain ⟨pc, ret, sub, q, ctx, cl, pan, obs⟩ := s
  cases e with
  | ret => simpa [Drain.step, Drain.armed, Event.isListen] using ha
  | cancel err => simpa [Drain.step, Drain.armed, Event.isListen] using ha
  | signal sig =>
    cases hn : notified sig <;> cases sub <;> cases q <;> cases pc <;>
      simp_all [Drain.armed, Drain.step, deliver, Event.isListen]
  | shutdownDone err =>
    cases pc <;> simp_all [Drain.armed, Drain.step, shutdownReturns, Event.isListen, PC.toCall]
  | listen b =>
    cases pc <;> cases q <;> cases cl <;>
      simp_all [Drain.armed, Drain.step, Drain.listener, shutdownAndClose, Event.isListen,
        PC.toCall, Drain.Inv, tailInv]

theorem Drain.progress_call (tr : List Event) :
    ∀ s, Drain.Inv s → Drain.armed s →
      (tr.foldl Drain.step s).pc.toCall ≤ s.pc.toCall - listens tr := by
  induction tr with
  | nil => intro s _ _; simp [listens]
  | cons e tr ih =>
    intro s hi ha
    have h1 := Drain.armed_step s e hi ha
    have h2 := ih _ (Drain.inv_step s e hi) h1.1
    rw [List.foldl_cons, listens_cons]
    omega

theorem Drain.armed_of_triggers (s : State) (e : Event) (hi : Drain.Inv s)
    (ht : Drain.triggers s e = true) :
    Drain.armed (Drain.step s e) ∧ (Drain.step s e).pc.toCall ≤ 3 := by
  obtain ⟨pc, ret, sub, q, ctx, cl, pan, obs⟩ := s
  cases e <;> simp [Drain.triggers] at ht
  obtain ⟨h1, h2⟩ := ht
  cases q <;> cases pc <;>
    simp_all [Drain.armed, Drain.step, deliver, PC.toCall, Drain.Inv]

theorem DrainWithContext.armed_step_ctx (s : State) (e : Event) (hi : DrainWithContext.Inv s)
    (ha : DrainWithContext.armed s) :
    DrainWithContext.armed (DrainWithContext.step s e) ∧
      (DrainWithContext.step s e).pc.toCall
        ≤ s.pc.toCall - (if e.isListen = true then 1 else 0) := by
  obtain ⟨pc, ret, sub, q, ctx, cl, pan, obs⟩ := s
  cases e with
  | ret => simpa [DrainWithContext.step, DrainWithContext.armed, Event.isListen] using ha
  | cancel err =>
    cases ctx <;> cases pc <;>
      simp_all [DrainWithContext.armed, DrainWithContext.step, cancelCtx, Event.isListen]
  | signal sig =>
    cases hn : notified sig <;> cases sub <;> cases q <;> cases pc <;>
      simp_all [DrainWithContext.armed, DrainWithContext.step, deliver, Event.isListen]
  | shutdownDone err =>
    cases pc <;>
      simp_all [DrainWithContext.armed, DrainWithContext.step, shutdownReturns, Event.isListen,
        PC.toCall]
  | listen b =>
    cases pc <;> cases q <;> cases ctx <;> cases b <;> cases cl <;>
      simp_all [DrainWithContext.armed, DrainWithContext.step, DrainWithContext.listener,
        shutdownAndClose, Event.isListen, PC.toCall, DrainWithContext.Inv,
        DrainWithContext.headInv, tailInv]

theorem DrainWithContext.progress_call_ctx (tr : List Event) :
    ∀ s, DrainWithContext.Inv s → DrainWithContext.armed s →
      (tr.foldl DrainWithContext.step s).pc.toCall ≤ s.pc.toCall - listens tr := by
  induction tr with
  | nil => intro s _ _; simp [listens]
  | cons e tr ih =>
    intro s hi ha
    have h1 := DrainWithContext.armed_step_ctx s e hi ha
    have h2 := ih _ (DrainWithContext.inv_step_ctx s e hi) h1.1
    rw [List.foldl_cons, listens_cons]
    omega

theorem DrainWithContext.armed_of_triggers_ctx (s : State) (e : Event)
    (hi : DrainWithContext.Inv s) (ht : DrainWithContext.triggers s e = true) :
    DrainWithContext.armed (DrainWithContext.step s e) ∧
      (DrainWithContext.step s e).pc.toCall ≤ s.pc.toCall := by
  obtain ⟨pc, ret, sub, q, ctx, cl, pan, obs⟩ := s
  cases e <;> simp [DrainWithContext.triggers] at ht
  · obtain ⟨h1, h2⟩ := ht
    cases q <;> cases pc <;>
      simp_all [DrainWithContext.armed, DrainWithContext.step, deliver, PC.toCall,
        DrainWithContext.Inv, DrainWithContext.headInv, tailInv]
  · cases ctx <;> cases pc <;>
      simp_all [DrainWithContext.armed, DrainWithContext.step, cancelCtx, PC.toCall]

theorem Drain.called_after_trigger (tr1 tr2 : List Event) (e : Event)
    (ht : Drain.triggers (Drain.run tr1) e = true) (hl : 3 ≤ listens tr2) :
    (Drain.run (tr1 ++ e :: tr2)).shutdownArgs.length = 1 := by
  have hi := Drain.inv_run tr1
  have h1 := Drain.armed_of_triggers _ e hi ht
  have h2 := Drain.progress_call tr2 _ (Drain.inv_step _ e hi) h1.1
  have h3 : Drain.run (tr1 ++ e :: tr2) = tr2.foldl Drain.step (Drain.step (Drain.run tr1) e) := by
    rw [Drain.run_append, List.foldl_cons]
  rw [h3]
  refine (norm_args (Drain.norm (Drain.inv_foldl tr2 _ (Drain.inv_step _ e hi)))).2.2.1 ?_
  omega

theorem DrainWithContext.called_after_trigger_ctx (c : Option String) (tr1 tr2 : List Event)
    (e : Event) (ht : DrainWithContext.triggers (DrainWithContext.run c tr1) e = true)
    (hl : (DrainWithContext.run c tr1).pc.toCall ≤ listens tr2) :
    (DrainWithContext.run c (tr1 ++ e :: tr2)).shutdownArgs.length = 1 := by
  have hi := DrainWithContext.inv_run_ctx c tr1
  have h1 := DrainWithContext.armed_of_triggers_ctx _ e hi ht
  have h2 := DrainWithContext.progress_call_ctx tr2 _ (DrainWithContext.inv_step_ctx _ e hi) h1.1
  have h3 : DrainWithContext.run c (tr1 ++ e :: tr2)
      = tr2.foldl DrainWithContext.step (DrainWithContext.step (DrainWithContext.run c tr1) e) := by
    rw [DrainWithContext.run_append_ctx, List.foldl_cons]
  rw [h3]
  refine (norm_args (DrainWithContext.norm_ctx
    (DrainWithContext.inv_foldl_ctx tr2 _ (DrainWithContext.inv_step_ctx _ e hi)))).2.2.1 ?_
  omega

theorem DrainWithContext.called_after_done (c : Option String) (tr : List Event)
    (hc : c ≠ none) (hl : 5 ≤ listens tr) :
    (DrainWithContext.run c tr).shutdownArgs.length = 1 := by
  have hi : DrainWithContext.Inv (DrainWithContext.init c) := DrainWithContext.inv_run_ctx c []
  have ha : DrainWithContext.armed (DrainWithContext.init c) := by
    simpa [DrainWithContext.armed, DrainWithContext.init, initState] using hc
  have h2 := DrainWithContext.progress_call_ctx tr _ hi ha
  refine (norm_args (DrainWithContext.norm_ctx (DrainWithContext.inv_run_ctx c tr))).2.2.1 ?_
  have h5 : (DrainWithContext.init c).pc.toCall = 5 := rfl
  unfold DrainWithContext.run
  omega

theorem norm_closed {s : State} (h : Norm s) :
    ClosedAfterReturn s ∧ (s.pc.toExit = 0 → s.idleClosed = true ∧ s.closes = 1) := by
  obtain ⟨-, ⟨ho, hc, hn⟩ | ⟨t, ht, ⟨hpc, ho, hc⟩ | ⟨hpc, ho, hc⟩ |
    ⟨r, ⟨hpc, ho, hc⟩ | ⟨hpc, ho, hc⟩ | ⟨hpc, ho, hc⟩⟩⟩⟩ := norm_cases h
  · have : s.pc.toExit = 3 := by
      revert hn
      cases s.pc <;> simp [PC.toCall, PC.toExit]
    simp [ClosedAfterReturn, State.closes, State.observerReleased, ho, hc, this]
  all_goals try cases r
  all_goals
    simp [ClosedAfterReturn, State.closes, State.observerReleased, State.shutdownArgs,
      State.shutdownResults, hpc, ho, hc, PC.toExit, errorReport, script]

theorem Drain.exit_step (s : State) (e : Event) (h : s.pc.toExit ≤ 2) :
    (Drain.step s e).pc.toExit ≤ s.pc.toExit - (if e.isListen = true then 1 else 0) := by
  obtain ⟨pc, ret, sub, q, ctx, cl, pan, obs⟩ := s
  cases e with
  | ret => simp [Drain.step, Event.isListen]
  | cancel err => simp [Drain.step, Event.isListen]
  | signal sig =>
    have := (deliver_frame ⟨pc, ret, sub, q, ctx, cl, pan, obs⟩ sig).1
    simp_all [Drain.step, Event.isListen]
  | shutdownDone err =>
    cases pc <;> simp_all [Drain.step, shutdownReturns, Event.isListen, PC.toExit]
  | listen b =>
    cases pc <;> cases cl <;>
      simp_all [Drain.step, Drain.listener, shutdownAndClose, Event.isListen, PC.toExit]

theorem Drain.progress_exit (tr : List Event) :
    ∀ s, s.pc.toExit ≤ 2 → (tr.foldl Drain.step s).pc.toExit ≤ s.pc.toExit - listens tr := by
  induction tr with
  | nil => intro s _; simp [listens]
  | cons e tr ih =>
    intro s h
    have h1 := Drain.exit_step s e h
    have h2 := ih (Drain.step s e) (by omega)
    rw [List.foldl_cons, listens_cons]
    omega

theorem DrainWithContext.exit_step_ctx (s : State) (e : Event) (h : s.pc.toExit ≤ 2) :
    (DrainWithContext.step s e).pc.toExit
      ≤ s.pc.toExit - (if e.isListen = true then 1 else 0) := by
  obtain ⟨pc, ret, sub, q, ctx, cl, pan, obs⟩ := s
  cases e with
  | ret => simp [DrainWithContext.step, Event.isListen]
  | cancel err =>
    have := (cancelCtx_frame ⟨pc, ret, sub, q, ctx, cl, pan, obs⟩ err).1
    simp_all [DrainWithContext.step, Event.isListen]
  | signal sig =>
    have := (deliver_frame ⟨pc, ret, sub, q, ctx, cl, pan, obs⟩ sig).1
    simp_all [DrainWithContext.step, Event.isListen]
  | shutdownDone err =>
    cases pc <;> simp_all [DrainWithContext.step, shutdownReturns, Event.isListen, PC.toExit]
  | listen b =>
    cases pc <;> cases cl <;>
      simp_all [DrainWithContext.step, DrainWithContext.listener, shutdownAndClose,
        Event.isListen, PC.toExit]

theorem DrainWithContext.progress_exit_ctx (tr : List Event) :
    ∀ s, s.pc.toExit ≤ 2 →
      (tr.foldl DrainWithContext.step s).pc.toExit ≤ s.pc.toExit - listens tr := by
  induction tr with
  | nil => intro s _; simp [listens]
  | cons e tr ih =>
    intro s h
    have h1 := DrainWithContext.exit_step_ctx s e h
    have h2 := ih (DrainWithContext.step s e) (by omega)
    rw [List.foldl_cons, listens_cons]
    omega

theorem Drain.exited_after_return (tr1 tr2 : List Event) (r : Option String)
    (hpc : (Drain.run tr1).pc = .inShutdown) (hl : 2 ≤ listens tr2) :
    (Drain.run (tr1 ++ .shutdownDone r :: tr2)).pc.toExit = 0 := by
  have h3 : Drain.run (tr1 ++ .shutdownDone r :: tr2)
      = tr2.foldl Drain.step (Drain.step (Drain.run tr1) (.shutdownDone r)) := by
    rw [Drain.run_append, List.foldl_cons]
  have h4 : (Drain.step (Drain.run tr1) (.shutdownDone r)).pc = .checkErr r := by
    simp [Drain.step, shutdownReturns, hpc]
  have h5 := Drain.progress_exit tr2 (Drain.step (Drain.run tr1) (.shutdownDone r))
    (by simp [h4, PC.toExit])
  have h6 : (PC.checkErr r).toExit = 2 := rfl
  rw [h4, h6] at h5
  rw [h3]
  omega

theorem DrainWithContext.exited_after_return_ctx (c : Option String) (tr1 tr2 : List Event)
    (r : Option String) (hpc : (DrainWithContext.run c tr1).pc = .inShutdown)
    (hl : 2 ≤ listens tr2) :
    (DrainWithContext.run c (tr1 ++ .shutdownDone r :: tr2)).pc.toExit = 0 := by
  have h3 : DrainWithContext.run c (tr1 ++ .shutdownDone r :: tr2)
      = tr2.foldl DrainWithContext.step
          (DrainWithContext.step (DrainWithContext.run c tr1) (.shutdownDone r)) := by
    rw [DrainWithContext.run_append_ctx, List.foldl_cons]
  have h4 : (DrainWithContext.step (DrainWithContext.run c tr1) (.shutdownDone r)).pc
      = .checkErr r := by
    simp [DrainWithContext.step, shutdownReturns, hpc]
  have h5 := DrainWithContext.progress_exit_ctx tr2
    (DrainWithContext.step (DrainWithContext.run c tr1) (.shutdownDone r))
    (by simp [h4, PC.toExit])
  have h6 : (PC.checkErr r).toExit = 2 := rfl
  rw [h4, h6] at h5
  rw [h3]
  omega

/-! ## The result of `Shutdown` does not steer the listener -/

theorem Drain.forgetResult_step (s : State) (e : Event) :
    (Drain.step s e).forgetResult = (Drain.step s.forgetResult e).forgetResult := by
  obtain ⟨pc, ret, sub, q, ctx, cl, pan, obs⟩ := s
  cases e with
  | ret => cases pc <;> simp [Drain.step, State.forgetResult]
  | cancel err => cases pc <;> simp [Drain.step, State.forgetResult]
  | signal sig =>
    cases hn : notified sig <;> cases sub <;> cases q <;> cases pc <;>
      simp [Drain.step, deliver, State.forgetResult, hn]
  | shutdownDone err =>
    cases pc <;> simp [Drain.step, shutdownReturns, State.forgetResult]
  | listen b =>
    cases pc <;> cases q <;> cases cl <;>
      simp [Drain.step, Drain.listener, shutdownAndClose, State.forgetResult]

theorem Drain.forgetResult_foldl (tr : List Event) :
    ∀ s1 s2 : State, s1.forgetResult = s2.forgetResult →
      (tr.foldl Drain.step s1).forgetResult = (tr.foldl Drain.step s2).forgetResult := by
  induction tr with
  | nil => intro s1 s2 h; simpa using h
  | cons e tr ih =>
    intro s1 s2 h
    rw [List.foldl_cons, List.foldl_cons]
    apply ih
    rw [Drain.forgetResult_step s1, Drain.forgetResult_step s2, h]

theorem DrainWithContext.forgetResult_step_ctx (s : State) (e : Event) :
    (DrainWithContext.step s e).forgetResult
      = (DrainWithContext.step s.forgetResult e).forgetResult := by
  obtain ⟨pc, ret, sub, q, ctx, cl, pan, obs⟩ := s
  cases e with
  | ret => cases pc <;> simp [DrainWithContext.step, State.forgetResult]
  | cancel err =>
    cases pc <;> cases ctx <;> simp [DrainWithContext.step, cancelCtx, State.forgetResult]
  | signal sig =>
    cases hn : notified sig <;> cases sub <;> cases q <;> cases pc <;>
      simp [DrainWithContext.step, deliver, State.forgetResult, hn]
  | shutdownDone err =>
    cases pc <;> simp [DrainWithContext.step, shutdownReturns, State.forgetResult]
  | listen b =>
    cases pc <;> cases q <;> cases cl <;> cases ctx <;> cases b <;>
      simp [DrainWithContext.step, DrainWithContext.listener, shutdownAndClose,
        State.forgetResult]

theorem DrainWithContext.forgetResult_foldl_ctx (tr : List Event) :
    ∀ s1 s2 : State, s1.forgetResult = s2.forgetResult →
      (tr.foldl DrainWithContext.step s1).forgetResult
        = (tr.foldl DrainWithContext.step s2).forgetResult := by
  induction tr with
  | nil => intro s1 s2 h; simpa using h
  | cons e tr ih =>
    intro s1 s2 h
    rw [List.foldl_cons, List.foldl_cons]
    apply ih
    rw [DrainWithContext.forgetResult_step_ctx s1, DrainWithContext.forgetResult_step_ctx s2, h]

theorem shutdownReturns_forgetResult (s : State) (r1 r2 : Option String) :
    (shutdownReturns s r1).forgetResult = (shutdownReturns s r2).forgetResult := by
  obtain ⟨pc, ret, sub, q, ctx, cl, pan, obs⟩ := s
  cases pc <;> simp [shutdownReturns, State.forgetResult]

theorem forgetResult_closed {s1 s2 : State} (h : s1.forgetResult = s2.forgetResult) :
    s1.idleClosed = s2.idleClosed ∧ s1.panicked = s2.panicked := by
  have h1 := congrArg State.idleClosed h
  have h2 := congrArg State.panicked h
  exact ⟨by simpa [State.forgetResult] using h1, by simpa [State.forgetResult] using h2⟩

/-! ## The result of `Shutdown` stays on record -/

theorem Drain.results_step (s : State) (e : Event) (h : s.pc.toExit ≤ 2) :
    (Drain.step s e).shutdownResults = s.shutdownResults := by
  obtain ⟨pc, ret, sub, q, ctx, cl, pan, obs⟩ := s
  cases e with
  | ret => simp [Drain.step, State.shutdownResults]
  | cancel err => simp [Drain.step, State.shutdownResults]
  | signal sig =>
    have := (deliver_frame ⟨pc, ret, sub, q, ctx, cl, pan, obs⟩ sig).2.1
    simp_all [Drain.step, State.shutdownResults]
  | shutdownDone err =>
    cases pc <;> simp_all [Drain.step, shutdownReturns, State.shutdownResults, PC.toExit]
  | listen b =>
    cases pc <;> cases cl <;>
      simp_all [Drain.step, Drain.listener, shutdownAndClose, State.shutdownResults,
        PC.toExit]
    all_goals rename_i err
    all_goals cases err <;> simp [errorReport]

theorem Drain.results_foldl (tr : List Event) :
    ∀ s, s.pc.toExit ≤ 2 → (tr.foldl Drain.step s).shutdownResults = s.shutdownResults := by
  induction tr with
  | nil => intro s _; rfl
  | cons e tr ih =>
    intro s h
    have h1 := Drain.exit_step s e h
    rw [List.foldl_cons, ih (Drain.step s e) (by omega), Drain.results_step s e h]

theorem DrainWithContext.results_step_ctx (s : State) (e : Event) (h : s.pc.toExit ≤ 2) :
    (DrainWithContext.step s e).shutdownResults = s.shutdownResults := by
  obtain ⟨pc, ret, sub, q, ctx, cl, pan, obs⟩ := s
  cases e with
  | ret => simp [DrainWithContext.step, State.shutdownResults]
  | cancel err =>
    have := (cancelCtx_frame ⟨pc, ret, sub, q, ctx, cl, pan, obs⟩ err).2.1
    simp_all [DrainWithContext.step, State.shutdownResults]
  | signal sig =>
    have := (deliver_frame ⟨pc, ret, sub, q, ctx, cl, pan, obs⟩ sig).2.1
    simp_all [DrainWithContext.step, State.shutdownResults]
  | shutdownDone err =>
    cases pc <;>
      simp_all [DrainWithContext.step, shutdownReturns, State.shutdownResults, PC.toExit]
  | listen b =>
    cases pc <;> cases cl <;>
      simp_all [DrainWithContext.step, DrainWithContext.listener, shutdownAndClose,
        State.shutdownResults, PC.toExit]
    all_goals rename_i err
    all_goals cases err <;> simp [errorReport]

theorem DrainWithContext.results_foldl_ctx (tr : List Event) :
    ∀ s, s.pc.toExit ≤ 2 →
      (tr.foldl DrainWithContext.step s).shutdownResults = s.shutdownResults := by
  induction tr with
  | nil => intro s _; rfl
  | cons e tr ih =>
    intro s h
    have h1 := DrainWithContext.exit_step_ctx s e h
    rw [List.foldl_cons, ih (DrainWithContext.step s e) (by omega),
      DrainWithContext.results_step_ctx s e h]

theorem results_after_return {s : State} (h : Norm s) (hpc : s.pc = .inShutdown)
    (r : Option String) :
    (shutdownReturns s r).shutdownResults = [r] ∧ (shutdownReturns s r).pc = .checkErr r := by
  obtain ⟨-, ⟨ho, hc, hn⟩ | ⟨t, ht, ⟨hpc1, ho, hc⟩ | ⟨hpc1, ho, hc⟩ |
    ⟨r1, ⟨hpc1, ho, hc⟩ | ⟨hpc1, ho, hc⟩ | ⟨hpc1, ho, hc⟩⟩⟩⟩ := norm_cases h
  · simp [hpc, PC.toCall] at hn
  all_goals simp_all [shutdownReturns, State.shutdownResults]

theorem norm_errorLines {s : State} (h : Norm s) :
    s.errorLines.length ≤ 1 ∧
      (∀ r, s.pc.toExit ≤ 1 → s.shutdownResults = [r] → s.errorLines = expectedErrorLines r) := by
  obtain ⟨-, ⟨ho, hc, hn⟩ | ⟨t, ht, ⟨hpc, ho, hc⟩ | ⟨hpc, ho, hc⟩ |
    ⟨r1, ⟨hpc, ho, hc⟩ | ⟨hpc, ho, hc⟩ | ⟨hpc, ho, hc⟩⟩⟩⟩ := norm_cases h
  · simp [State.errorLines, State.logLines, State.shutdownResults, ho]
  all_goals try cases r1
  all_goals cases t <;> simp [LogLine.isCouldNot] at ht
  all_goals
    simp [State.errorLines, State.logLines, State.shutdownResults, hpc, ho, PC.toExit,
      errorReport, script, expectedErrorLines, LogLine.isCouldNot, List.filter_cons]

/-! ## Without a trigger the listener stays where it waits -/

theorem Drain.quiet_step (s : State) (e : Event) (h : Drain.quiet s)
    (he : e.isNotifiedSignal = false) : Drain.quiet (Drain.step s e) := by
  obtain ⟨pc, ret, sub, q, ctx, cl, pan, obs⟩ := s
  cases e with
  | ret => simpa [Drain.step, Drain.quiet] using h
  | cancel err => simpa [Drain.step, Drain.quiet] using h
  | signal sig =>
    simp only [Event.isNotifiedSignal] at he
    simpa [Drain.step, deliver, he, Drain.quiet] using h
  | shutdownDone err =>
    cases pc <;> simp_all [Drain.step, shutdownReturns, Drain.quiet, PC.phase]
  | listen b =>
    cases pc <;>
      simp_all [Drain.step, Drain.listener, shutdownAndClose, Drain.quiet, PC.phase]

theorem DrainWithContext.quiet_step_ctx (s : State) (e : Event) (h : DrainWithContext.quiet s)
    (he : e.isNotifiedSignal = false ∧ e.isCancel = false) :
    DrainWithContext.quiet (DrainWithContext.step s e) := by
  obtain ⟨pc, ret, sub, q, ctx, cl, pan, obs⟩ := s
  cases e with
  | ret => simpa [DrainWithContext.step, DrainWithContext.quiet] using h
  | cancel err => simp [Event.isCancel] at he
  | signal sig =>
    simp only [Event.isNotifiedSignal] at he
    simpa [DrainWithContext.step, deliver, he.1, DrainWithContext.quiet] using h
  | shutdownDone err =>
    cases pc <;>
      simp_all [DrainWithContext.step, shutdownReturns, DrainWithContext.quiet, PC.phase]
  | listen b =>
    cases pc <;>
      simp_all [DrainWithContext.step, DrainWithContext.listener, shutdownAndClose,
        DrainWithContext.quiet, PC.phase]

theorem norm_listening {s : State} (h : Norm s) (hl : s.pc.phase = .listening) :
    s.shutdownArgs = [] ∧ s.idleClosed = false := by
  refine (norm_args h).2.2.2 ?_
  revert hl
  cases s.pc <;> simp [PC.phase, PC.toCall]

/-! ## `DrainWithContext` with a context that is never done, against `Drain` -/

theorem blur_errorReport (r : Option String) :
    (errorReport r).map Action.blur = errorReport r := by
  cases r <;> simp [errorReport, Action.blur]

theorem toDrain_step (w : State) (e : Event) (hi : DrainWithContext.Inv w)
    (hc : w.ctxErr = none) (he : e.isCancel = false) :
    (DrainWithContext.step w e).toDrain = Drain.step w.toDrain e ∧
      (DrainWithContext.step w e).ctxErr = none := by
  obtain ⟨pc, ret, sub, q, ctx, cl, pan, obs⟩ := w
  simp only at hc
  subst hc
  cases e with
  | ret => cases pc <;> simp [DrainWithContext.step, Drain.step, State.toDrain]
  | cancel err => simp [Event.isCancel] at he
  | signal sig =>
    cases hn : notified sig <;> cases sub <;> cases q <;> cases pc <;>
      simp [DrainWithContext.step, Drain.step, deliver, State.toDrain, hn]
  | shutdownDone err =>
    cases pc <;>
      simp [DrainWithContext.step, Drain.step, shutdownReturns, State.toDrain, Action.blur]
  | listen b =>
    cases pc <;> cases q <;> cases cl <;>
      simp_all [DrainWithContext.step, Drain.step, DrainWithContext.listener, Drain.listener,
        shutdownAndClose, State.toDrain, Action.blur, DrainWithContext.Inv,
        DrainWithContext.headInv, tailInv, blur_errorReport]

theorem toDrain_foldl (tr : List Event) :
    ∀ w : State, DrainWithContext.Inv w → w.ctxErr = none →
      (∀ e ∈ tr, e.isCancel = false) →
      tr.foldl Drain.step w.toDrain = (tr.foldl DrainWithContext.step w).toDrain := by
  induction tr with
  | nil => intro w _ _ _; rfl
  | cons e tr ih =>
    intro w hi hc he
    have h1 := toDrain_step w e hi hc (he e (List.mem_cons_self _ _))
    rw [List.foldl_cons, List.foldl_cons, ← h1.1]
    exact ih _ (DrainWithContext.inv_step_ctx w e hi) h1.2
      (fun a ha => he a (List.mem_cons_of_mem _ ha))

theorem blur_observables (obs : List Action) :
    (obs.map Action.blur).filterMap (fun a => match a with
        | .shutdownCall c => some c
        | _ => none)
        = obs.filterMap (fun a => match a with
          | .shutdownCall c => some c
          | _ => none) ∧
      (obs.map Action.blur).filterMap (fun a => match a with
        | .shutdownReturn r => some r
        | _ => none)
        = obs.filterMap (fun a => match a with
          | .shutdownReturn r => some r
          | _ => none) ∧
      ((obs.map Action.blur).filterMap (fun a => match a with
        | .log l => some l
        | _ => none)).filter LogLine.isCouldNot
        = (obs.filterMap (fun a => match a with
          | .log l => some l
          | _ => none)).filter LogLine.isCouldNot ∧
      (obs.map Action.blur).count .closeIdle = obs.count .closeIdle := by
  induction obs with
  | nil => simp
  | cons a obs ih =>
    obtain ⟨h1, h2, h3, h4⟩ := ih
    rcases a with (_ | _ | _ | _) | _ | _ | _ <;>
      simp_all [Action.blur, List.filterMap_cons, List.filter_cons, LogLine.isCouldNot,
        List.count_cons]

theorem toDrain_observables (w : State) :
    w.toDrain.shutdownArgs = w.shutdownArgs ∧ w.toDrain.shutdownResults = w.shutdownResults ∧
      w.toDrain.errorLines = w.errorLines ∧ w.toDrain.closes = w.closes ∧
      w.toDrain.idleClosed = w.idleClosed ∧ w.toDrain.obs = w.obs.map Action.blur := by
  obtain ⟨h1, h2, h3, h4⟩ := blur_observables w.obs
  exact ⟨h1, h2, h3, h4, rfl, rfl⟩

/-! ## The subscription is made by the listener -/

theorem Drain.notify_step (s : State) (e : Event) :
    (Drain.step s e).pc.toNotify ≤ s.pc.toNotify - (if e.isListen = true then 1 else 0) := by
  obtain ⟨pc, ret, sub, q, ctx, cl, pan, obs⟩ := s
  cases e with
  | ret => simp [Drain.step, Event.isListen]
  | cancel err => simp [Drain.step, Event.isListen]
  | signal sig =>
    have := (deliver_frame ⟨pc, ret, sub, q, ctx, cl, pan, obs⟩ sig).1
    simp_all [Drain.step, Event.isListen]
  | shutdownDone err =>
    cases pc <;> simp [Drain.step, shutdownReturns, Event.isListen, PC.toNotify]
  | listen b =>
    cases pc <;> cases q <;> cases cl <;>
      simp [Drain.step, Drain.listener, shutdownAndClose, Event.isListen, PC.toNotify]

theorem Drain.progress_notify (tr : List Event) :
    ∀ s, (tr.foldl Drain.step s).pc.toNotify ≤ s.pc.toNotify - listens tr := by
  induction tr with
  | nil => intro s; simp [listens]
  | cons e tr ih =>
    intro s
    have h1 := Drain.notify_step s e
    have h2 := ih (Drain.step s e)
    rw [List.foldl_cons, listens_cons]
    omega

theorem DrainWithContext.notify_step_ctx (s : State) (e : Event) :
    (DrainWithContext.step s e).pc.toNotify
      ≤ s.pc.toNotify - (if e.isListen = true then 1 else 0) := by
  obtain ⟨pc, ret, sub, q, ctx, cl, pan, obs⟩ := s
  cases e with
  | ret => simp [DrainWithContext.step, Event.isListen]
  | cancel err =>
    have := (cancelCtx_frame ⟨pc, ret, sub, q, ctx, cl, pan, obs⟩ err).1
    simp_all [DrainWithContext.step, Event.isListen]
  | signal sig =>
    have := (deliver_frame ⟨pc, ret, sub, q, ctx, cl, pan, obs⟩ sig).1
    simp_all [DrainWithContext.step, Event.isListen]
  | shutdownDone err =>
    cases pc <;> simp [DrainWithContext.step, shutdownReturns, Event.isListen, PC.toNotify]
  | listen b =>
    cases pc <;> cases q <;> cases cl <;> cases ctx <;> cases b <;>
      simp [DrainWithContext.step, DrainWithContext.listener, shutdownAndClose,
        Event.isListen, PC.toNotify]

theorem DrainWithContext.progress_notify_ctx (tr : List Event) :
    ∀ s, (tr.foldl DrainWithContext.step s).pc.toNotify ≤ s.pc.toNotify - listens tr := by
  induction tr with
  | nil => intro s; simp [listens]
  | cons e tr ih =>
    intro s
    have h1 := DrainWithContext.notify_step_ctx s e
    have h2 := ih (DrainWithContext.step s e)
    rw [List.foldl_cons, listens_cons]
    omega

theorem Drain.subscribed_iff {s : State} (h : Drain.Inv s) :
    s.subscribed = true ↔ s.pc.toNotify = 0 := by
  obtain ⟨pc, ret, sub, q, ctx, cl, pan, obs⟩ := s
  cases pc <;> simp_all [Drain.Inv, PC.toNotify]

theorem DrainWithContext.subscribed_iff_ctx {s : State} (h : DrainWithContext.Inv s) :
    s.subscribed = true ↔ s.pc.toNotify = 0 := by
  obtain ⟨pc, ret, sub, q, ctx, cl, pan, obs⟩ := s
  cases pc <;> simp_all [DrainWithContext.Inv, DrainWithContext.headInv, tailInv, PC.toNotify]

/-! ## The phases only move forward -/

theorem Drain.phase_step (s : State) (e : Event) (hi : Drain.Inv s) :
    s.pc.phase.index ≤ (Drain.step s e).pc.phase.index ∧
      (Drain.step s e).pc.phase.index ≤ s.pc.phase.index + 1 ∧
      ((Drain.step s e).pc.phase = .completed → s.pc.phase ≠ .completed →
        e.isListen = true ∧ s.pc = .closeIdle ∧ s.idleClosed = false ∧
          (Drain.step s e).idleClosed = true ∧
          (Drain.step s e).obs = s.obs ++ [.closeIdle]) := by
  obtain ⟨pc, ret, sub, q, ctx, cl, pan, obs⟩ := s
  cases e with
  | ret => simp [Drain.step]
  | cancel err => simp [Drain.step]
  | signal sig =>
    have := (deliver_frame ⟨pc, ret, sub, q, ctx, cl, pan, obs⟩ sig).1
    simp_all [Drain.step]
  | shutdownDone err =>
    cases pc <;> simp [Drain.step, shutdownReturns, PC.phase, Phase.index]
  | listen b =>
    cases pc <;> cases q <;> cases cl <;>
      simp_all [Drain.step, Drain.listener, shutdownAndClose, PC.phase, Phase.index,
        Event.isListen, Drain.Inv, tailInv]

theorem DrainWithContext.phase_step_ctx (s : State) (e : Event)
    (hi : DrainWithContext.Inv s) :
    s.pc.phase.index ≤ (DrainWithContext.step s e).pc.phase.index ∧
      (DrainWithContext.step s e).pc.phase.index ≤ s.pc.phase.index + 1 ∧
      ((DrainWithContext.step s e).pc.phase = .completed → s.pc.phase ≠ .completed →
        e.isListen = true ∧ s.pc = .closeIdle ∧ s.idleClosed = false ∧
          (DrainWithContext.step s e).idleClosed = true ∧
          (DrainWithContext.step s e).obs = s.obs ++ [.closeIdle]) := by
  obtain ⟨pc, ret, sub, q, ctx, cl, pan, obs⟩ := s
  cases e with
  | ret => simp [DrainWithContext.step]
  | cancel err =>
    have := (cancelCtx_frame ⟨pc, ret, sub, q, ctx, cl, pan, obs⟩ err).1
    simp_all [DrainWithContext.step]
  | signal sig =>
    have := (deliver_frame ⟨pc, ret, sub, q, ctx, cl, pan, obs⟩ sig).1
    simp_all [DrainWithContext.step]
  | shutdownDone err =>
    cases pc <;> simp [DrainWithContext.step, shutdownReturns, PC.phase, Phase.index]
  | listen b =>
    cases pc <;> cases q <;> cases cl <;> cases ctx <;> cases b <;>
      simp_all [DrainWithContext.step, DrainWithContext.listener, shutdownAndClose, PC.phase,
        Phase.index, Event.isListen, DrainWithContext.Inv, DrainWithContext.headInv, tailInv]

theorem Drain.phase_foldl (tr : List Event) :
    ∀ s, Drain.Inv s → s.pc.phase.index ≤ (tr.foldl Drain.step s).pc.phase.index := by
  induction tr with
  | nil => intro s _; exact Nat.le_refl _
  | cons e tr ih =>
    intro s hi
    have h1 := (Drain.phase_step s e hi).1
    have h2 := ih _ (Drain.inv_step s e hi)
    rw [List.foldl_cons]
    omega

theorem DrainWithContext.phase_foldl_ctx (tr : List Event) :
    ∀ s, DrainWithContext.Inv s →
      s.pc.phase.index ≤ (tr.foldl DrainWithContext.step s).pc.phase.index := by
  induction tr with
  | nil => intro s _; exact Nat.le_refl _
  | cons e tr ih =>
    intro s hi
    have h1 := (DrainWithContext.phase_step_ctx s e hi).1
    have h2 := ih _ (DrainWithContext.inv_step_ctx s e hi)
    rw [List.foldl_cons]
    omega

theorem phase_completed_iff (pc : PC) :
    (pc.phase = .completed ↔ pc.toExit = 0) ∧ (pc.phase = .completed ↔ 2 ≤ pc.phase.index) := by
  cases pc <;> simp [PC.phase, PC.toExit, Phase.index]

theorem norm_completed {s : State} (h : Norm s) :
    s.pc.phase = .completed ↔ s.idleClosed = true := by
  obtain ⟨-, ⟨ho, hc, hn⟩ | ⟨t, ht, ⟨hpc, ho, hc⟩ | ⟨hpc, ho, hc⟩ |
    ⟨r, ⟨hpc, ho, hc⟩ | ⟨hpc, ho, hc⟩ | ⟨hpc, ho, hc⟩⟩⟩⟩ := norm_cases h
  · rw [hc]
    revert hn
    cases s.pc <;> simp [PC.toCall, PC.phase]
  all_goals simp [hpc, hc, PC.phase]

/-! ## A context that is done before any signal -/

theorem DrainWithContext.unsignalled_step (s : State) (e : Event)
    (hi : DrainWithContext.Inv s) (h : DrainWithContext.unsignalled s)
    (he : e.isNotifiedSignal = false) :
    DrainWithContext.unsignalled (DrainWithContext.step s e) := by
  obtain ⟨hq, ⟨hh, hns⟩ | ⟨hc, ht⟩⟩ := h
  · obtain ⟨pc, ret, sub, q, ctx, cl, pan, obs⟩ := s
    simp only at hq
    subst hq
    cases e with
    | ret =>
      exact ⟨rfl, Or.inl ⟨hh, hns⟩⟩
    | cancel err =>
      cases ctx <;> cases pc <;>
        simp_all [DrainWithContext.unsignalled, DrainWithContext.headInv,
          DrainWithContext.step, cancelCtx]
    | signal sig =>
      simp only [Event.isNotifiedSignal] at he
      simp only [DrainWithContext.step, deliver, he, Bool.and_false]
      exact ⟨rfl, Or.inl ⟨hh, hns⟩⟩
    | shutdownDone err =>
      cases pc <;>
        simp_all [DrainWithContext.unsignalled, DrainWithContext.headInv,
          DrainWithContext.step, shutdownReturns]
    | listen b =>
      cases pc <;> cases ctx <;> cases b <;>
        simp_all [DrainWithContext.unsignalled, DrainWithContext.headInv,
          DrainWithContext.step, DrainWithContext.listener, shutdownAndClose, tailInv]
  · cases e with
    | ret => exact ⟨hq, Or.inr ⟨hc, ht⟩⟩
    | cancel err =>
      have hf := cancelCtx_frame s err
      have hce := cancelCtx_ctxErr s err hc
      refine ⟨by simpa [DrainWithContext.step, hf] using hq, Or.inr ⟨?_, ?_⟩⟩
      · simpa [DrainWithContext.step, hce] using hc
      · simp only [DrainWithContext.step, hce]
        exact tailInv_frame hf.1 hf.2.1 hf.2.2.1 ht
    | signal sig =>
      simp only [Event.isNotifiedSignal] at he
      have hd : DrainWithContext.step s (.signal sig) = s := by
        simp [DrainWithContext.step, deliver, he]
      rw [hd]
      exact ⟨hq, Or.inr ⟨hc, ht⟩⟩
    | shutdownDone err =>
      have hf := shutdownReturns_frame s err
      refine ⟨by simpa [DrainWithContext.step, hf] using hq, Or.inr ⟨?_, ?_⟩⟩
      · simpa [DrainWithContext.step, hf] using hc
      · simp only [DrainWithContext.step, hf.2.2.2.2.1]
        exact tailInv_shutdownReturns err ht
    | listen b =>
      have hf := shutdownAndClose_frame s
      have hl : DrainWithContext.step s (.listen b) = shutdownAndClose s :=
        DrainWithContext.listener_tail b ht
      rw [hl]
      refine ⟨by simpa [hf] using hq, Or.inr ⟨by simpa [hf] using hc, ?_⟩⟩
      rw [hf.2.2.1]
      exact tailInv_shutdownAndClose ht

theorem DrainWithContext.tookCtx_step (E : Option String) (hE : E ≠ none) (s : State)
    (e : Event) (hi : DrainWithContext.Inv s) (h : DrainWithContext.tookCtx E s) :
    DrainWithContext.tookCtx E (DrainWithContext.step s e) := by
  obtain ⟨hc, ⟨hpc, ho⟩ | ht⟩ := h
  · obtain ⟨pc, ret, sub, q, ctx, cl, pan, obs⟩ := s
    simp only at hc hpc ho
    subst hc hpc ho
    cases e with
    | ret => exact ⟨rfl, Or.inl ⟨rfl, rfl⟩⟩
    | cancel err =>
      cases ctx <;> simp_all [DrainWithContext.tookCtx, DrainWithContext.step, cancelCtx]
    | signal sig =>
      cases hn : notified sig <;> cases sub <;> cases q <;>
        simp [DrainWithContext.tookCtx, DrainWithContext.step, deliver, hn]
    | shutdownDone err =>
      simp [DrainWithContext.tookCtx, DrainWithContext.step, shutdownReturns]
    | listen b =>
      simp_all [DrainWithContext.tookCtx, DrainWithContext.step, DrainWithContext.listener,
        tailInv, DrainWithContext.Inv, DrainWithContext.headInv]
  · subst hc
    cases e with
    | ret => exact ⟨rfl, Or.inr ht⟩
    | cancel err =>
      have hf := cancelCtx_frame s err
      exact ⟨cancelCtx_ctxErr s err hE, Or.inr (tailInv_frame hf.1 hf.2.1 hf.2.2.1 ht)⟩
    | signal sig =>
      have hf := deliver_frame s sig
      exact ⟨hf.2.2.2.2.2.1, Or.inr (tailInv_frame hf.1 hf.2.1 hf.2.2.1 ht)⟩
    | shutdownDone err =>
      have hf := shutdownReturns_frame s err
      exact ⟨hf.2.2.2.2.1, Or.inr (tailInv_shutdownReturns err ht)⟩
    | listen b =>
      have hf := shutdownAndClose_frame s
      have hl : DrainWithContext.step s (.listen b) = shutdownAndClose s :=
        DrainWithContext.listener_tail b ht
      rw [hl]
      exact ⟨hf.2.2.1, Or.inr (tailInv_shutdownAndClose ht)⟩

theorem DrainWithContext.tookCtx_foldl (E : Option String) (hE : E ≠ none)
    (tr : List Event) :
    ∀ s, DrainWithContext.Inv s → DrainWithContext.tookCtx E s →
      DrainWithContext.tookCtx E (tr.foldl DrainWithContext.step s) := by
  induction tr with
  | nil => intro s _ h; exact h
  | cons e tr ih =>
    intro s hi h
    rw [List.foldl_cons]
    exact ih _ (DrainWithContext.inv_step_ctx s e hi)
      (DrainWithContext.tookCtx_step E hE s e hi h)

theorem DrainWithContext.unsignalled_run (c : Option String) (tr : List Event)
    (h : ∀ e ∈ tr, e.isNotifiedSignal = false) :
    DrainWithContext.unsignalled (DrainWithContext.run c tr) := by
  have key := foldl_inv
    (P := fun s => DrainWithContext.Inv s ∧ DrainWithContext.unsignalled s)
    (Q := fun e => e.isNotifiedSignal = false) (f := DrainWithContext.step)
    (fun s e hs he => ⟨DrainWithContext.inv_step_ctx s e hs.1,
      DrainWithContext.unsignalled_step s e hs.1 hs.2 he⟩)
    tr (DrainWithContext.init c) ⟨DrainWithContext.inv_run_ctx c [], ?_⟩ h
  · exact key.2
  · simp [DrainWithContext.unsignalled, DrainWithContext.headInv, DrainWithContext.init,
      initState]

theorem DrainWithContext.tookCtx_of_unsignalled {s : State}
    (h : DrainWithContext.unsignalled s) (hp : s.pc.toCall ≤ 2) :
    DrainWithContext.tookCtx s.ctxErr s := by
  obtain ⟨-, ⟨hh, hns⟩ | ⟨-, ht⟩⟩ := h
  · refine ⟨rfl, Or.inl ?_⟩
    obtain ⟨pc, ret, sub, q, ctx, cl, pan, obs⟩ := s
    cases pc <;> simp_all [DrainWithContext.headInv, PC.toCall]
  · exact ⟨rfl, Or.inr ht⟩

theorem tookCtx_lines {E : Option String} {s : State} (hi : Norm s)
    (h : DrainWithContext.tookCtx E s) :
    (∀ l ∈ s.triggerLines, l = .dueToCtx E) ∧
      (s.pc.toCall ≤ 1 → s.triggerLines = [.dueToCtx E]) := by
  obtain ⟨-, ⟨hpc, ho⟩ | ht⟩ := h
  · simp [State.triggerLines, State.logLines, ho, hpc, PC.toCall]
  · have hn : Norm s := ⟨hi.1, Or.inr ⟨LogLine.dueToCtx E, rfl, ht⟩⟩
    obtain ⟨-, ⟨ho, hc, hn⟩ | ⟨t, htc, ⟨hpc, ho, hc⟩ | ⟨hpc, ho, hc⟩ |
      ⟨r, ⟨hpc, ho, hc⟩ | ⟨hpc, ho, hc⟩ | ⟨hpc, ho, hc⟩⟩⟩⟩ := norm_cases hn
    · exfalso
      revert hn ht
      unfold tailInv
      cases s.pc <;> simp [PC.toCall]
    all_goals try cases r
    all_goals
      have ht2 := ht
      simp [tailInv, hpc, ho, script, errorReport] at ht2
      obtain ⟨rfl, -⟩ := ht2
      simp [State.triggerLines, State.logLines, ho, hpc, PC.toCall, script, errorReport,
        LogLine.isCouldNot, List.filter_cons]

/-! ## With a done context, signals do not change what the listener does -/

theorem blur_idem (a : Action) : a.blur.blur = a.blur := by
  rcases a with (_ | _ | _ | _) | _ | _ | _ <;> rfl

theorem blur_shutdownCall (c : Context) :
    (Action.shutdownCall c).blur = Action.shutdownCall c := rfl

theorem blur_shutdownReturn (r : Option String) :
    (Action.shutdownReturn r).blur = Action.shutdownReturn r := rfl

theorem blur_closeIdle : Action.closeIdle.blur = Action.closeIdle := rfl

theorem blur_dueToSignal (sig : Signal) :
    (Action.log (.dueToSignal sig)).blur = Action.log .starting := rfl

theorem blur_dueToCtx (err : Option String) :
    (Action.log (.dueToCtx err)).blur = Action.log .starting := rfl

theorem forgetTrigger_step (s : State) (e : Event) (hc : s.ctxErr ≠ none) :
    (DrainWithContext.step s e).forgetTrigger
        = (DrainWithContext.step s.forgetTrigger e).forgetTrigger ∧
      (DrainWithContext.step s e).ctxErr = s.ctxErr := by
  obtain ⟨pc, ret, sub, q, ctx, cl, pan, obs⟩ := s
  cases ctx with
  | none => exact absurd rfl hc
  | some E =>
    cases e with
    | ret => cases pc <;> simp [DrainWithContext.step, State.forgetTrigger, blur_idem]
    | cancel err =>
      cases pc <;> simp [DrainWithContext.step, cancelCtx, State.forgetTrigger, blur_idem]
    | signal sig =>
      cases hn : notified sig <;> cases sub <;> cases q <;> cases pc <;>
        simp [DrainWithContext.step, deliver, State.forgetTrigger, hn, blur_idem]
    | shutdownDone err =>
      cases pc <;>
        simp [DrainWithContext.step, shutdownReturns, State.forgetTrigger, blur_idem,
          blur_shutdownReturn]
    | listen b =>
      cases pc <;> cases q <;> cases cl <;> cases b <;>
        simp [DrainWithContext.step, DrainWithContext.listener, shutdownAndClose,
          State.forgetTrigger, blur_idem, blur_shutdownCall, blur_closeIdle,
          blur_dueToSignal, blur_dueToCtx, blur_errorReport]

theorem forgetTrigger_ctxErr (s : State) : s.forgetTrigger.ctxErr = s.ctxErr := rfl

theorem forgetTrigger_congr (tr : List Event) :
    ∀ s1 s2 : State, s1.forgetTrigger = s2.forgetTrigger → s1.ctxErr ≠ none →
      (tr.foldl DrainWithContext.step s1).forgetTrigger
        = (tr.foldl DrainWithContext.step s2).forgetTrigger := by
  induction tr with
  | nil => intro s1 s2 h _; simpa using h
  | cons e tr ih =>
    intro s1 s2 h hc
    have hc2 : s2.ctxErr ≠ none := by
      rw [← forgetTrigger_ctxErr s2, ← h, forgetTrigger_ctxErr]
      exact hc
    rw [List.foldl_cons, List.foldl_cons]
    apply ih
    · rw [(forgetTrigger_step s1 e hc).1, (forgetTrigger_step s2 e hc2).1, h]
    · rw [(forgetTrigger_step s1 e hc).2]
      exact hc

theorem forgetTrigger_signal (s : State) (sig : Signal) :
    (DrainWithContext.step s (.signal sig)).forgetTrigger = s.forgetTrigger := by
  obtain ⟨pc, ret, sub, q, ctx, cl, pan, obs⟩ := s
  cases hn : notified sig <;> cases sub <;> cases q <;>
    simp [DrainWithContext.step, deliver, State.forgetTrigger, hn]

theorem forgetTrigger_dropSignals (tr : List Event) :
    ∀ s : State, s.ctxErr ≠ none →
      (tr.foldl DrainWithContext.step s).forgetTrigger
        = ((dropSignals tr).foldl DrainWithContext.step s).forgetTrigger := by
  induction tr with
  | nil => intro s _; rfl
  | cons e tr ih =>
    intro s hc
    have hc1 : (DrainWithContext.step s e).ctxErr ≠ none := by
      rw [(forgetTrigger_step s e hc).2]
      exact hc
    rw [List.foldl_cons, ih _ hc1]
    cases e with
    | signal sig =>
      have hd : dropSignals (Event.signal sig :: tr) = dropSignals tr := by
        simp [dropSignals]
      rw [hd]
      exact forgetTrigger_congr _ _ _ (forgetTrigger_signal s sig) hc1
    | ret => simp [dropSignals]
    | cancel err => simp [dropSignals]
    | listen b => simp [dropSignals]
    | shutdownDone err => simp [dropSignals]

theorem forgetTrigger_observables (s : State) :
    s.forgetTrigger.shutdownArgs = s.shutdownArgs ∧
      s.forgetTrigger.shutdownResults = s.shutdownResults ∧
      s.forgetTrigger.errorLines = s.errorLines ∧ s.forgetTrigger.closes = s.closes ∧
      s.forgetTrigger.idleClosed = s.idleClosed := by
  obtain ⟨h1, h2, h3, h4⟩ := blur_observables s.obs
  exact ⟨h1, h2, h3, h4, rfl⟩

theorem toCall_zero_return (s : State) (r : Option String) (h : s.pc.toCall = 0) :
    (shutdownReturns s r).pc.toExit ≤ 2 := by
  obtain ⟨pc, ret, sub, q, ctx, cl, pan, obs⟩ := s
  cases pc <;> simp_all [shutdownReturns, PC.toCall, PC.toExit]

/-! ## The claims -/

/-- C1, as the code has it: in every execution of a `Drain` or
`DrainWithContext` call, whatever signals are raised and however often `ctx`
is cancelled, `srv.Shutdown` is invoked at most once; and it is invoked exactly
once as soon as a trigger has been delivered to the call (a signal of the
`Notify` set raised while `q` is registered, that is after the listener has run
`signal.Notify`, a cancellation of `ctx`, or a `ctx` that was done from the
start) and the listener has afterwards been scheduled for the statements it has
left before the call.  A signal raised before the registration is not
delivered to the call. -/
theorem shutdown_invoked_once (c : Option String) (tr : List Event) :
    (Drain.run tr).shutdownArgs.length ≤ 1 ∧
    (DrainWithContext.run c tr).shutdownArgs.length ≤ 1 ∧
    (∀ tr1 e tr2, tr = tr1 ++ e :: tr2 → Drain.triggers (Drain.run tr1) e = true →
      3 ≤ listens tr2 → (Drain.run tr).shutdownArgs.length = 1) ∧
    (∀ tr1 e tr2, tr = tr1 ++ e :: tr2 →
      DrainWithContext.triggers (DrainWithContext.run c tr1) e = true →
      (DrainWithContext.run c tr1).pc.toCall ≤ listens tr2 →
      (DrainWithContext.run c tr).shutdownArgs.length = 1) ∧
    (c ≠ none → 5 ≤ listens tr → (DrainWithContext.run c tr).shutdownArgs.length = 1) := by
  refine ⟨(norm_args (Drain.norm (Drain.inv_run tr))).1,
    (norm_args (DrainWithContext.norm_ctx (DrainWithContext.inv_run_ctx c tr))).1, ?_, ?_, ?_⟩
  · intro tr1 e tr2 h ht hl
    subst h
    exact Drain.called_after_trigger tr1 tr2 e ht hl
  · intro tr1 e tr2 h ht hl
    subst h
    exact DrainWithContext.called_after_trigger_ctx c tr1 tr2 e ht hl
  · exact DrainWithContext.called_after_done c tr

/-- Witness of C1 as amended: two signals for `Drain`, and a cancellation followed by a
signal for `DrainWithContext`, each lead to exactly one call of `Shutdown`. -/
theorem shutdown_invoked_once_witness :
    (Drain.run [.listen false, .listen false, .signal .SIGTERM, .signal .Interrupt,
      .listen false, .listen false, .listen false]).shutdownArgs.length = 1 ∧
    (DrainWithContext.run none [.listen false, .cancel "context canceled", .signal .SIGTERM,
      .listen false, .signal .Interrupt, .listen true, .listen false,
      .listen false]).shutdownArgs.length = 1 :=
  ⟨(shutdown_invoked_once none _).2.2.1 [.listen false, .listen false] (.signal .SIGTERM)
      [.signal .Interrupt, .listen false, .listen false, .listen false] rfl (by decide)
      (by decide),
    (shutdown_invoked_once none _).2.2.2.1 [.listen false] (.cancel "context canceled")
      [.signal .SIGTERM, .listen false, .signal .Interrupt, .listen true, .listen false,
        .listen false] rfl (by decide) (by decide)⟩

/-- Counterexample to C1 as stated: a sequence that contains triggers and yet
leads to no call of `Shutdown`.  For `Drain`, `Interrupt` and `SIGTERM` are
raised right after the `go` statement, before the listener has run at all; for
`DrainWithContext`, `SIGTERM` is raised after the listener has made `q` but
before it has run `signal.Notify`.  In both, `q` is not registered when the
signal is raised, the signal never reaches it, and the listener, scheduled six
more times, waits at its receive with `Shutdown` not invoked. -/
theorem trigger_before_registration_no_shutdown :
    ([Event.signal .Interrupt, .signal .SIGTERM, .listen false, .listen false,
      .listen false, .listen false, .listen false,
      .listen false].any Event.isNotifiedSignal = true) ∧
    (Drain.run [.signal .Interrupt, .signal .SIGTERM, .listen false, .listen false,
      .listen false, .listen false, .listen false, .listen false]).shutdownArgs.length
        = 0 ∧
    (Drain.run [.signal .Interrupt, .signal .SIGTERM, .listen false, .listen false,
      .listen false, .listen false, .listen false, .listen false]).pc = .recv ∧
    ([Event.listen false, .signal .SIGTERM, .listen false, .listen false, .listen false,
      .listen false, .listen false, .listen false].any Event.isNotifiedSignal = true) ∧
    (DrainWithContext.run none [.listen false, .signal .SIGTERM, .listen false,
      .listen false, .listen false, .listen false, .listen false,
      .listen false]).shutdownArgs.length = 0 ∧
    (DrainWithContext.run none [.listen false, .signal .SIGTERM, .listen false,
      .listen false, .listen false, .listen false, .listen false,
      .listen false]).pc = .select := by
  decide

/-- C2: in every reachable state of a `Drain` or `DrainWithContext` call the
channel `idleConns` has been closed at most once, and it is closed only when
`srv.Shutdown` has been called and has returned (the close is the last action,
after the return), so no observer is released earlier; and once `Shutdown` has
returned, with nil or with an error, two more statements of the listener close
the channel, exactly once. -/
theorem closed_once_after_shutdown (c : Option String) (tr : List Event) :
    ClosedAfterReturn (Drain.run tr) ∧ ClosedAfterReturn (DrainWithContext.run c tr) ∧
    (∀ tr1 r tr2, tr = tr1 ++ .shutdownDone r :: tr2 → (Drain.run tr1).pc = .inShutdown →
      2 ≤ listens tr2 → (Drain.run tr).idleClosed = true ∧ (Drain.run tr).closes = 1) ∧
    (∀ tr1 r tr2, tr = tr1 ++ .shutdownDone r :: tr2 →
      (DrainWithContext.run c tr1).pc = .inShutdown → 2 ≤ listens tr2 →
      (DrainWithContext.run c tr).idleClosed = true ∧
        (DrainWithContext.run c tr).closes = 1) := by
  refine ⟨(norm_closed (Drain.norm (Drain.inv_run tr))).1,
    (norm_closed (DrainWithContext.norm_ctx (DrainWithContext.inv_run_ctx c tr))).1, ?_, ?_⟩
  · intro tr1 r tr2 h hpc hl
    subst h
    exact (norm_closed (Drain.norm (Drain.inv_run _))).2
      (Drain.exited_after_return tr1 tr2 r hpc hl)
  · intro tr1 r tr2 h hpc hl
    subst h
    exact (norm_closed (DrainWithContext.norm_ctx (DrainWithContext.inv_run_ctx c _))).2
      (DrainWithContext.exited_after_return_ctx c tr1 tr2 r hpc hl)

/-- Witness of C2: a `Drain` listener whose `Shutdown` fails, and a
`DrainWithContext` listener whose `Shutdown` succeeds, both close the channel. -/
theorem closed_once_after_shutdown_witness :
    ((Drain.run [.listen false, .listen false, .signal .SIGTERM, .listen false,
      .listen false, .listen false, .shutdownDone (some "listener closed"), .listen false,
      .listen false]).idleClosed = true ∧
     (Drain.run [.listen false, .listen false, .signal .SIGTERM, .listen false,
      .listen false, .listen false, .shutdownDone (some "listener closed"), .listen false,
      .listen false]).closes = 1) ∧
    ((DrainWithContext.run (some "context canceled") [.listen false, .listen false,
      .listen false, .listen false, .listen false, .shutdownDone none, .listen false,
      .listen false]).idleClosed = true ∧
     (DrainWithContext.run (some "context canceled") [.listen false, .listen false,
      .listen false, .listen false, .listen false, .shutdownDone none, .listen false,
      .listen false]).closes = 1) :=
  ⟨(closed_once_after_shutdown none _).2.2.1
      [.listen false, .listen false, .signal .SIGTERM, .listen false, .listen false,
        .listen false] (some "listener closed") [.listen false, .listen false] rfl
      (by decide) (by decide),
    (closed_once_after_shutdown (some "context canceled") _).2.2.2
      [.listen false, .listen false, .listen false, .listen false, .listen false] none
      [.listen false, .listen false] rfl (by decide) (by decide)⟩

/-- C3: whatever `srv.Shutdown` returns, nil or an error, the listener of `Drain`
and of `DrainWithContext` goes on to close `idleConns`: apart from the actions
that show the result, the state reached after a return of `r` is the state
reached after a return of nil, at every later point; the listener does not
panic; observers see the same thing (the channel closed or not); and two more
statements of the listener after the return close the channel. -/
theorem completes_whatever_shutdown_returns (c : Option String) (tr1 tr2 : List Event)
    (r : Option String) :
    ((Drain.run (tr1 ++ .shutdownDone r :: tr2)).forgetResult
        = (Drain.run (tr1 ++ .shutdownDone none :: tr2)).forgetResult ∧
      (Drain.run (tr1 ++ .shutdownDone r :: tr2)).observerReleased
        = (Drain.run (tr1 ++ .shutdownDone none :: tr2)).observerReleased ∧
      (Drain.run (tr1 ++ .shutdownDone r :: tr2)).panicked = false ∧
      ((Drain.run tr1).pc = .inShutdown → 2 ≤ listens tr2 →
        (Drain.run (tr1 ++ .shutdownDone r :: tr2)).idleClosed = true)) ∧
    ((DrainWithContext.run c (tr1 ++ .shutdownDone r :: tr2)).forgetResult
        = (DrainWithContext.run c (tr1 ++ .shutdownDone none :: tr2)).forgetResult ∧
      (DrainWithContext.run c (tr1 ++ .shutdownDone r :: tr2)).observerReleased
        = (DrainWithContext.run c (tr1 ++ .shutdownDone none :: tr2)).observerReleased ∧
      (DrainWithContext.run c (tr1 ++ .shutdownDone r :: tr2)).panicked = false ∧
      ((DrainWithContext.run c tr1).pc = .inShutdown → 2 ≤ listens tr2 →
        (DrainWithContext.run c (tr1 ++ .shutdownDone r :: tr2)).idleClosed = true)) := by
  have hd : (Drain.run (tr1 ++ .shutdownDone r :: tr2)).forgetResult
      = (Drain.run (tr1 ++ .shutdownDone none :: tr2)).forgetResult := by
    rw [Drain.run_append, Drain.run_append, List.foldl_cons, List.foldl_cons]
    exact Drain.forgetResult_foldl tr2 _ _ (shutdownReturns_forgetResult _ r none)
  have hw : (DrainWithContext.run c (tr1 ++ .shutdownDone r :: tr2)).forgetResult
      = (DrainWithContext.run c (tr1 ++ .shutdownDone none :: tr2)).forgetResult := by
    rw [DrainWithContext.run_append_ctx, DrainWithContext.run_append_ctx, List.foldl_cons,
      List.foldl_cons]
    exact DrainWithContext.forgetResult_foldl_ctx tr2 _ _ (shutdownReturns_forgetResult _ r none)
  refine ⟨⟨hd, (forgetResult_closed hd).1, (Drain.inv_run _).1, ?_⟩,
    ⟨hw, (forgetResult_closed hw).1, (DrainWithContext.inv_run_ctx c _).1, ?_⟩⟩
  · intro hpc hl
    exact ((norm_closed (Drain.norm (Drain.inv_run _))).2
      (Drain.exited_after_return tr1 tr2 r hpc hl)).1
  · intro hpc hl
    exact ((norm_closed (DrainWithContext.norm_ctx (DrainWithContext.inv_run_ctx c _))).2
      (DrainWithContext.exited_after_return_ctx c tr1 tr2 r hpc hl)).1

/-- Witness of C3: a `Drain` call whose `Shutdown` returns the error
`listener closed` still closes the channel. -/
theorem completes_whatever_shutdown_returns_witness :
    (Drain.run ([.listen false, .listen false, .signal .Interrupt, .listen false,
      .listen false, .listen false] ++ .shutdownDone (some "listener closed") ::
      [.listen false, .ret, .listen false])).idleClosed = true :=
  (completes_whatever_shutdown_returns none
    [.listen false, .listen false, .signal .Interrupt, .listen false, .listen false,
      .listen false] [.listen false, .ret, .listen false] (some "listener closed")).1.2.2.2
    (by decide) (by decide)

/-- C4: the log of a `Drain` or `DrainWithContext` call never holds more than
one line for a `Shutdown` error; once `Shutdown` has returned `r` and the
listener has run one more statement, the log holds exactly the line
`[graceful] Could not shutdown gracefully: ` followed by the text of the error
when `r` is an error, and no such line when `r` is nil. -/
theorem error_line_iff_shutdown_failed (c : Option String) (tr : List Event) :
    (Drain.run tr).errorLines.length ≤ 1 ∧
    (DrainWithContext.run c tr).errorLines.length ≤ 1 ∧
    (∀ tr1 r tr2, tr = tr1 ++ .shutdownDone r :: tr2 → (Drain.run tr1).pc = .inShutdown →
      1 ≤ listens tr2 → (Drain.run tr).errorLines = expectedErrorLines r) ∧
    (∀ tr1 r tr2, tr = tr1 ++ .shutdownDone r :: tr2 →
      (DrainWithContext.run c tr1).pc = .inShutdown → 1 ≤ listens tr2 →
      (DrainWithContext.run c tr).errorLines = expectedErrorLines r) ∧
    (∀ e, (expectedErrorLines (some e)).map LogLine.text
      = ["[graceful] Could not shutdown gracefully: " ++ e]) ∧
    expectedErrorLines none = [] := by
  refine ⟨(norm_errorLines (Drain.norm (Drain.inv_run tr))).1,
    (norm_errorLines (DrainWithContext.norm_ctx (DrainWithContext.inv_run_ctx c tr))).1, ?_, ?_,
    fun e => rfl, rfl⟩
  · intro tr1 r tr2 h hpc hl
    subst h
    have h0 := results_after_return (Drain.norm (Drain.inv_run tr1)) hpc r
    have h3 : Drain.run (tr1 ++ .shutdownDone r :: tr2)
        = tr2.foldl Drain.step (shutdownReturns (Drain.run tr1) r) := by
      rw [Drain.run_append, List.foldl_cons]
      rfl
    have h6 : (PC.checkErr r).toExit = 2 := rfl
    have h4 := Drain.results_foldl tr2 _ (by rw [h0.2, h6])
    have h5 := Drain.progress_exit tr2 (shutdownReturns (Drain.run tr1) r) (by rw [h0.2, h6])
    rw [h0.2, h6] at h5
    rw [h0.1] at h4
    refine (norm_errorLines (Drain.norm (Drain.inv_run _))).2 r ?_ ?_
    · rw [h3]; omega
    · rw [h3]; exact h4
  · intro tr1 r tr2 h hpc hl
    subst h
    have h0 := results_after_return
      (DrainWithContext.norm_ctx (DrainWithContext.inv_run_ctx c tr1)) hpc r
    have h3 : DrainWithContext.run c (tr1 ++ .shutdownDone r :: tr2)
        = tr2.foldl DrainWithContext.step
            (shutdownReturns (DrainWithContext.run c tr1) r) := by
      rw [DrainWithContext.run_append_ctx, List.foldl_cons]
      rfl
    have h6 : (PC.checkErr r).toExit = 2 := rfl
    have h4 := DrainWithContext.results_foldl_ctx tr2 _ (by rw [h0.2, h6])
    have h5 := DrainWithContext.progress_exit_ctx tr2
      (shutdownReturns (DrainWithContext.run c tr1) r) (by rw [h0.2, h6])
    rw [h0.2, h6] at h5
    rw [h0.1] at h4
    refine (norm_errorLines
      (DrainWithContext.norm_ctx (DrainWithContext.inv_run_ctx c _))).2 r ?_ ?_
    · rw [h3]; omega
    · rw [h3]; exact h4

/-- Witness of C4: a `Shutdown` that returns `listener closed` leaves exactly
the line with that error. -/
theorem error_line_iff_shutdown_failed_witness :
    (Drain.run [.listen false, .listen false, .signal .SIGTERM, .listen false,
      .listen false, .listen false, .shutdownDone (some "listener closed"), .listen false,
      .listen false]).errorLines = [.couldNot "listener closed"] :=
  (error_line_iff_shutdown_failed none _).2.2.1
    [.listen false, .listen false, .signal .SIGTERM, .listen false, .listen false,
      .listen false] (some "listener closed") [.listen false, .listen false] rfl
    (by decide) (by decide)

/-- C5: whatever the context given to `DrainWithContext` (done from the start,
cancelled later, or never) and whatever triggered the shutdown, every call of
`srv.Shutdown` gets `context.Background()`, which is not done in any state;
the same holds for `Drain`.  So the list of arguments is empty or the one
background context, for every trace and every `ctx`. -/
theorem shutdown_gets_background (c : Option String) (tr : List Event) :
    (∀ x ∈ (DrainWithContext.run c tr).shutdownArgs,
      x = Context.background ∧ Context.done (DrainWithContext.run c tr) x = false) ∧
    (∀ x ∈ (Drain.run tr).shutdownArgs,
      x = Context.background ∧ Context.done (Drain.run tr) x = false) ∧
    ((DrainWithContext.run c tr).shutdownArgs = [] ∨
      (DrainWithContext.run c tr).shutdownArgs = [Context.background]) ∧
    ((Drain.run tr).shutdownArgs = [] ∨ (Drain.run tr).shutdownArgs = [Context.background]) ∧
    (∀ s : State, Context.done s Context.background = false) := by
  have key : ∀ s : State, Norm s →
      (∀ x ∈ s.shutdownArgs, x = Context.background ∧ Context.done s x = false) ∧
        (s.shutdownArgs = [] ∨ s.shutdownArgs = [Context.background]) := by
    intro s hs
    obtain ⟨h1, h2, -, -⟩ := norm_args hs
    refine ⟨fun x hx => ?_, ?_⟩
    · rw [h2 x hx]
      exact ⟨rfl, rfl⟩
    · match hargs : s.shutdownArgs with
      | [] => exact Or.inl rfl
      | [x] =>
        right
        rw [h2 x (by rw [hargs]; exact List.mem_singleton.mpr rfl)]
      | _ :: _ :: _ => rw [hargs] at h1; simp at h1
  have hw := key _ (DrainWithContext.norm_ctx (DrainWithContext.inv_run_ctx c tr))
  have hd := key _ (Drain.norm (Drain.inv_run tr))
  exact ⟨hw.1, hd.1, hw.2, hd.2, fun _ => rfl⟩

/-- C7: as long as no trigger has been delivered, the listener waits, `Shutdown`
has not been called and `idleConns` is open.  For `Drain` a trigger is a signal
of the `Notify` set (other signals and cancellations do nothing); for
`DrainWithContext` it is such a signal or a done `ctx`.  And in every reachable
state in which the listener has not yet received a trigger (it is still
listening), `Shutdown` has not been called and the channel is open. -/
theorem no_shutdown_before_trigger (c : Option String) (tr : List Event) :
    ((∀ e ∈ tr, e.isNotifiedSignal = false) →
      (Drain.run tr).pc.phase = .listening ∧ (Drain.run tr).shutdownArgs = [] ∧
        (Drain.run tr).idleClosed = false) ∧
    ((∀ e ∈ tr, e.isNotifiedSignal = false ∧ e.isCancel = false) →
      (DrainWithContext.run none tr).pc.phase = .listening ∧
        (DrainWithContext.run none tr).shutdownArgs = [] ∧
        (DrainWithContext.run none tr).idleClosed = false) ∧
    ((Drain.run tr).pc.phase = .listening →
      (Drain.run tr).shutdownArgs = [] ∧ (Drain.run tr).idleClosed = false) ∧
    ((DrainWithContext.run c tr).pc.phase = .listening →
      (DrainWithContext.run c tr).shutdownArgs = [] ∧
        (DrainWithContext.run c tr).idleClosed = false) := by
  refine ⟨fun h => ?_, fun h => ?_, norm_listening (Drain.norm (Drain.inv_run tr)),
    norm_listening (DrainWithContext.norm_ctx (DrainWithContext.inv_run_ctx c tr))⟩
  · have hq : Drain.quiet (Drain.run tr) :=
      foldl_inv (P := Drain.quiet) (Q := fun e => e.isNotifiedSignal = false)
        Drain.quiet_step tr Drain.init ⟨rfl, rfl⟩ h
    exact ⟨hq.2, norm_listening (Drain.norm (Drain.inv_run tr)) hq.2⟩
  · have hq : DrainWithContext.quiet (DrainWithContext.run none tr) :=
      foldl_inv (P := DrainWithContext.quiet)
        (Q := fun e => e.isNotifiedSignal = false ∧ e.isCancel = false)
        DrainWithContext.quiet_step_ctx tr (DrainWithContext.init none) ⟨rfl, rfl, rfl⟩ h
    exact ⟨hq.2.2,
      norm_listening (DrainWithContext.norm_ctx (DrainWithContext.inv_run_ctx none tr)) hq.2.2⟩

/-- Witness of C7: a `Drain` call that only sees a cancellation and a signal
outside the `Notify` set keeps listening, however often it is scheduled. -/
theorem no_shutdown_before_trigger_witness :
    (Drain.run [.listen false, .listen false, .cancel "context canceled",
      .signal (.other 1), .listen false, .listen false, .ret, .listen false]).pc.phase
        = .listening ∧
    (Drain.run [.listen false, .listen false, .cancel "context canceled",
      .signal (.other 1), .listen false, .listen false, .ret, .listen false]).shutdownArgs
        = [] ∧
    (Drain.run [.listen false, .listen false, .cancel "context canceled",
      .signal (.other 1), .listen false, .listen false, .ret, .listen false]).idleClosed
        = false :=
  (no_shutdown_before_trigger none _).1 (by decide)

/-- C8, as the code has it: for a context that is never done, every sequence of
signals and every result of `Shutdown`, `DrainWithContext(ctx, srv)` and
`Drain(srv)` move in lockstep: the same calls of `Shutdown` with the same
argument, the same results, the same line for a `Shutdown` error, the same
closing of the returned channel, and the same actions in the same order, but
for the line logged for the trigger, which is `Drain`'s fixed line in the one
and names the signal in the other. -/
theorem drain_with_context_matches_drain (tr : List Event)
    (h : ∀ e ∈ tr, e.isCancel = false) :
    Drain.run tr = (DrainWithContext.run none tr).toDrain ∧
    (Drain.run tr).shutdownArgs = (DrainWithContext.run none tr).shutdownArgs ∧
    (Drain.run tr).shutdownResults = (DrainWithContext.run none tr).shutdownResults ∧
    (Drain.run tr).errorLines = (DrainWithContext.run none tr).errorLines ∧
    (Drain.run tr).closes = (DrainWithContext.run none tr).closes ∧
    (Drain.run tr).idleClosed = (DrainWithContext.run none tr).idleClosed ∧
    (Drain.run tr).obs = (DrainWithContext.run none tr).obs.map Action.blur := by
  have h1 : Drain.run tr = (DrainWithContext.run none tr).toDrain :=
    toDrain_foldl tr (DrainWithContext.init none) (DrainWithContext.inv_run_ctx none []) rfl h
  obtain ⟨h2, h3, h4, h5, h6, h7⟩ := toDrain_observables (DrainWithContext.run none tr)
  rw [h1]
  exact ⟨rfl, h2, h3, h4, h5, h6, h7⟩

/-- Witness of C8 as amended: a run with two signals and a failing `Shutdown`. -/
theorem drain_with_context_matches_drain_witness :
    (Drain.run [.listen false, .ret, .listen false, .signal .SIGTERM, .signal .Interrupt,
      .listen false, .listen false, .listen false, .shutdownDone (some "listener closed"),
      .listen false, .listen false]).obs
    = (DrainWithContext.run none [.listen false, .ret, .listen false, .signal .SIGTERM,
      .signal .Interrupt, .listen false, .listen false, .listen false,
      .shutdownDone (some "listener closed"), .listen false, .listen false]).obs.map
        Action.blur :=
  (drain_with_context_matches_drain _ (by decide)).2.2.2.2.2.2

/-- Counterexample to C8 as stated: after one `SIGTERM`, with a context that is
never cancelled, `Drain` has logged `Starting shutdown sequence` and
`DrainWithContext` has logged `Shutting down due to signal: terminated`: the
diagnostic output is not the same. -/
theorem drain_with_context_log_differs :
    (∀ e ∈ [Event.listen false, .listen false, .signal .SIGTERM, .listen false,
      .listen false], e.isCancel = false) ∧
    ((Drain.run [.listen false, .listen false, .signal .SIGTERM, .listen false,
      .listen false]).logLines.map LogLine.text
        = ["[graceful] Starting shutdown sequence"]) ∧
    ((DrainWithContext.run none [.listen false, .listen false, .signal .SIGTERM,
      .listen false, .listen false]).logLines.map LogLine.text
        = ["[graceful] Shutting down due to signal: terminated"]) ∧
    (Drain.run [.listen false, .listen false, .signal .SIGTERM, .listen false,
      .listen false]).logLines.map LogLine.text
      ≠ (DrainWithContext.run none [.listen false, .listen false, .signal .SIGTERM,
        .listen false, .listen false]).logLines.map LogLine.text := by
  refine ⟨by decide, by decide, by decide, by decide⟩

/-- C9, as the code has it: the subscription is made by the listener goroutine,
as its second statement, so it is in place exactly when the listener has run
that statement (at the latest after two schedulings), whether or not the call
has returned.  From then on a signal of the `Notify` set raised at any point,
also before the listener is at its receive, is stored in the single-slot buffer
when the buffer is empty, and is not lost: three statements of the listener
later `Shutdown` has been called. -/
theorem signal_kept_once_subscribed (c : Option String) (tr1 tr2 : List Event)
    (sig : Signal) (hn : notified sig = true) :
    (((Drain.run tr1).subscribed = true ↔ (Drain.run tr1).pc.toNotify = 0) ∧
      (2 ≤ listens tr1 → (Drain.run tr1).subscribed = true) ∧
      ((Drain.run tr1).subscribed = true →
        ((Drain.run tr1).q = none → (Drain.run (tr1 ++ [.signal sig])).q = some sig) ∧
        (3 ≤ listens tr2 →
          (Drain.run (tr1 ++ .signal sig :: tr2)).shutdownArgs.length = 1))) ∧
    (((DrainWithContext.run c tr1).subscribed = true
        ↔ (DrainWithContext.run c tr1).pc.toNotify = 0) ∧
      (2 ≤ listens tr1 → (DrainWithContext.run c tr1).subscribed = true) ∧
      ((DrainWithContext.run c tr1).subscribed = true →
        ((DrainWithContext.run c tr1).q = none →
          (DrainWithContext.run c (tr1 ++ [.signal sig])).q = some sig) ∧
        (3 ≤ listens tr2 →
          (DrainWithContext.run c (tr1 ++ .signal sig :: tr2)).shutdownArgs.length = 1))) := by
  have hd := Drain.subscribed_iff (Drain.inv_run tr1)
  have hw := DrainWithContext.subscribed_iff_ctx (DrainWithContext.inv_run_ctx c tr1)
  refine ⟨⟨hd, fun hl => ?_, fun hs => ⟨fun hq => ?_, fun hl => ?_⟩⟩,
    ⟨hw, fun hl => ?_, fun hs => ⟨fun hq => ?_, fun hl => ?_⟩⟩⟩
  · rw [hd]
    have h := Drain.progress_notify tr1 Drain.init
    have h2 : Drain.init.pc.toNotify = 2 := rfl
    unfold Drain.run
    omega
  · rw [Drain.run_append]
    simp [Drain.step, deliver, hs, hn, hq]
  · exact Drain.called_after_trigger tr1 tr2 (.signal sig)
      (by simp [Drain.triggers, hs, hn]) hl
  · rw [hw]
    have h := DrainWithContext.progress_notify_ctx tr1 (DrainWithContext.init c)
    have h2 : (DrainWithContext.init c).pc.toNotify = 2 := rfl
    unfold DrainWithContext.run
    omega
  · rw [DrainWithContext.run_append_ctx]
    simp [DrainWithContext.step, deliver, hs, hn, hq]
  · refine DrainWithContext.called_after_trigger_ctx c tr1 tr2 (.signal sig)
      (by simp [DrainWithContext.triggers, hs, hn]) ?_
    have h3 : (DrainWithContext.run c tr1).pc.toCall ≤ 3 := by
      have := hw.mp hs
      revert this
      cases (DrainWithContext.run c tr1).pc <;> simp [PC.toNotify, PC.toCall]
    omega

/-- Witness of C9 as amended: the listener of `Drain` has registered `q` but has
not yet run its receive when `SIGTERM` is raised; the signal is stored and
leads to the call of `Shutdown`. -/
theorem signal_kept_once_subscribed_witness :
    (Drain.run ([.ret, .listen false, .listen false] ++ [.signal .SIGTERM])).q
      = some .SIGTERM ∧
    (Drain.run ([.ret, .listen false, .listen false] ++ .signal .SIGTERM ::
      [.listen false, .listen false, .listen false])).shutdownArgs.length = 1 :=
  ⟨((signal_kept_once_subscribed none [.ret, .listen false, .listen false] [] .SIGTERM
      rfl).1.2.2 (by decide)).1 (by decide),
    ((signal_kept_once_subscribed none [.ret, .listen false, .listen false]
      [.listen false, .listen false, .listen false] .SIGTERM rfl).1.2.2 (by decide)).2
      (by decide)⟩

/-- Counterexample to C9 as stated: the call returns before the listener has run;
at that point `q` is not registered, a `SIGTERM` raised then is not stored in
any buffer, and however long the listener runs afterwards it never calls
`Shutdown`.  The same holds for `DrainWithContext`. -/
theorem signal_after_return_not_captured :
    (Drain.run [.ret]).returned = true ∧ (Drain.run [.ret]).subscribed = false ∧
    (Drain.run [.ret, .signal .SIGTERM]).q = none ∧
    (Drain.run [.ret, .signal .SIGTERM, .listen false, .listen false, .listen false,
      .listen false, .listen false, .listen false]).shutdownArgs = [] ∧
    (DrainWithContext.run none [.ret]).returned = true ∧
    (DrainWithContext.run none [.ret]).subscribed = false ∧
    (DrainWithContext.run none [.ret, .signal .SIGTERM]).q = none ∧
    (DrainWithContext.run none [.ret, .signal .SIGTERM, .listen false, .listen false,
      .listen false, .listen false, .listen false, .listen false]).shutdownArgs = [] := by
  decide

/-- C10: the completion of a `Drain` or `DrainWithContext` call is one-shot and
durable.  With every event the listener stays in its phase or moves to the next
one along `Listening -> ShuttingDown -> Completed`; it enters `Completed` only
by closing the returned channel; it is `Completed` exactly when the channel is
closed; and after that every further event (signal, cancellation, scheduling,
return) leaves it `Completed` with the channel closed once.  So an observer
that waited before the close is released by it, and one that starts to wait
later is released at once. -/
theorem completion_is_durable (c : Option String) (tr : List Event) (e : Event)
    (tr2 : List Event) :
    OneShot Drain.run tr e tr2 ∧ OneShot (DrainWithContext.run c) tr e tr2 := by
  constructor
  · have hi := Drain.inv_run tr
    have hs := Drain.phase_step (Drain.run tr) e hi
    have he : Drain.run (tr ++ [e]) = Drain.step (Drain.run tr) e := by
      rw [Drain.run_append]
      rfl
    refine ⟨by rw [he]; exact hs.1, by rw [he]; exact hs.2.1, ?_,
      norm_completed (Drain.norm hi), fun hc => ?_⟩
    · rw [he]
      exact hs.2.2
    · have hm := Drain.phase_foldl tr2 _ hi
      rw [← Drain.run_append] at hm
      have h2 := (phase_completed_iff (Drain.run tr).pc).2.mp hc
      have h3 : (Drain.run (tr ++ tr2)).pc.phase = .completed :=
        (phase_completed_iff _).2.mpr (by omega)
      have h4 := (norm_closed (Drain.norm (Drain.inv_run (tr ++ tr2)))).2
        ((phase_completed_iff _).1.mp h3)
      exact ⟨h3, h4.1, h4.2⟩
  · have hi := DrainWithContext.inv_run_ctx c tr
    have hs := DrainWithContext.phase_step_ctx (DrainWithContext.run c tr) e hi
    have he : DrainWithContext.run c (tr ++ [e])
        = DrainWithContext.step (DrainWithContext.run c tr) e := by
      rw [DrainWithContext.run_append_ctx]
      rfl
    refine ⟨by rw [he]; exact hs.1, by rw [he]; exact hs.2.1, ?_,
      norm_completed (DrainWithContext.norm_ctx hi), fun hc => ?_⟩
    · rw [he]
      exact hs.2.2
    · have hm := DrainWithContext.phase_foldl_ctx tr2 _ hi
      rw [← DrainWithContext.run_append_ctx] at hm
      have h2 := (phase_completed_iff (DrainWithContext.run c tr).pc).2.mp hc
      have h3 : (DrainWithContext.run c (tr ++ tr2)).pc.phase = .completed :=
        (phase_completed_iff _).2.mpr (by omega)
      have h4 := (norm_closed
        (DrainWithContext.norm_ctx (DrainWithContext.inv_run_ctx c (tr ++ tr2)))).2
        ((phase_completed_iff _).1.mp h3)
      exact ⟨h3, h4.1, h4.2⟩

/-- Witness of C10: a completed `Drain` call stays completed, with its channel
closed once, through a further signal, cancellation, scheduling and return. -/
theorem completion_is_durable_witness :
    (Drain.run ([.listen false, .listen false, .signal .SIGTERM, .listen false,
      .listen false, .listen false, .shutdownDone none, .listen false, .listen false] ++
      [.signal .Interrupt, .cancel "context canceled", .listen true,
        .shutdownDone (some "listener closed"), .ret])).pc.phase = .completed ∧
    (Drain.run ([.listen false, .listen false, .signal .SIGTERM, .listen false,
      .listen false, .listen false, .shutdownDone none, .listen false, .listen false] ++
      [.signal .Interrupt, .cancel "context canceled", .listen true,
        .shutdownDone (some "listener closed"), .ret])).observerReleased = true ∧
    (Drain.run ([.listen false, .listen false, .signal .SIGTERM, .listen false,
      .listen false, .listen false, .shutdownDone none, .listen false, .listen false] ++
      [.signal .Interrupt, .cancel "context canceled", .listen true,
        .shutdownDone (some "listener closed"), .ret])).closes = 1 :=
  (completion_is_durable none
    [.listen false, .listen false, .signal .SIGTERM, .listen false, .listen false,
      .listen false, .shutdownDone none, .listen false, .listen false] .ret
    [.signal .Interrupt, .cancel "context canceled", .listen true,
      .shutdownDone (some "listener closed"), .ret]).1.2.2.2.2 (by decide)

/-- C6, as the code has it: take an execution of `DrainWithContext` whose first
part `tr1` holds no signal of the `Notify` set and ends with `ctx` done.
Whatever follows (`tr2`, with or without signals): once the listener has been
scheduled for the statements it has left, `Shutdown` has been called, exactly
once, and once `Shutdown` has then returned and the listener has run two more
statements, the returned channel is closed; signals make no difference, for
the run without the signals of `tr2` agrees on the calls of `Shutdown`, their
results, the error line and the closing of the channel.  The line logged for the
trigger is the error of `ctx` when the listener has run its `select` before any
signal was raised (within `tr1`). -/
theorem cancel_before_signal (c : Option String) (tr1 tr2 tr3 : List Event)
    (r : Option String) (h1 : ∀ e ∈ tr1, e.isNotifiedSignal = false)
    (h2 : (DrainWithContext.run c tr1).ctxErr ≠ none) :
    ((DrainWithContext.run c tr1).pc.toCall ≤ listens tr2 →
      (DrainWithContext.run c (tr1 ++ tr2)).shutdownArgs.length = 1 ∧
      (2 ≤ listens tr3 →
        (DrainWithContext.run c (tr1 ++ tr2 ++ .shutdownDone r :: tr3)).idleClosed = true)) ∧
    ((DrainWithContext.run c tr1).pc.toCall ≤ 2 →
      (∀ l ∈ (DrainWithContext.run c (tr1 ++ tr2)).triggerLines,
        l = .dueToCtx (DrainWithContext.run c tr1).ctxErr) ∧
      ((DrainWithContext.run c (tr1 ++ tr2)).pc.toCall ≤ 1 →
        (DrainWithContext.run c (tr1 ++ tr2)).triggerLines
          = [.dueToCtx (DrainWithContext.run c tr1).ctxErr])) ∧
    ((DrainWithContext.run c (tr1 ++ tr2)).forgetTrigger
        = (DrainWithContext.run c (tr1 ++ dropSignals tr2)).forgetTrigger ∧
      (DrainWithContext.run c (tr1 ++ tr2)).shutdownArgs
        = (DrainWithContext.run c (tr1 ++ dropSignals tr2)).shutdownArgs ∧
      (DrainWithContext.run c (tr1 ++ tr2)).shutdownArgs.length ≤ 1 ∧
      (DrainWithContext.run c (tr1 ++ tr2)).shutdownResults
        = (DrainWithContext.run c (tr1 ++ dropSignals tr2)).shutdownResults ∧
      (DrainWithContext.run c (tr1 ++ tr2)).errorLines
        = (DrainWithContext.run c (tr1 ++ dropSignals tr2)).errorLines ∧
      (DrainWithContext.run c (tr1 ++ tr2)).closes
        = (DrainWithContext.run c (tr1 ++ dropSignals tr2)).closes ∧
      (DrainWithContext.run c (tr1 ++ tr2)).idleClosed
        = (DrainWithContext.run c (tr1 ++ dropSignals tr2)).idleClosed) := by
  have hi := DrainWithContext.inv_run_ctx c tr1
  refine ⟨fun hl => ⟨?_, fun hl3 => ?_⟩, fun hp => ?_, ?_⟩
  · have ha : DrainWithContext.armed (DrainWithContext.run c tr1) := by
      unfold DrainWithContext.armed
      cases (DrainWithContext.run c tr1).pc <;> simp [h2]
    have hp := DrainWithContext.progress_call_ctx tr2 _ hi ha
    rw [← DrainWithContext.run_append_ctx] at hp
    exact (norm_args (DrainWithContext.norm_ctx (DrainWithContext.inv_run_ctx c _))).2.2.1
      (by omega)
  · have ha : DrainWithContext.armed (DrainWithContext.run c tr1) := by
      unfold DrainWithContext.armed
      cases (DrainWithContext.run c tr1).pc <;> simp [h2]
    have hp := DrainWithContext.progress_call_ctx tr2 _ hi ha
    rw [← DrainWithContext.run_append_ctx] at hp
    have h0 := toCall_zero_return (DrainWithContext.run c (tr1 ++ tr2)) r (by omega)
    have h3 : DrainWithContext.run c (tr1 ++ tr2 ++ .shutdownDone r :: tr3)
        = tr3.foldl DrainWithContext.step
            (shutdownReturns (DrainWithContext.run c (tr1 ++ tr2)) r) := by
      rw [DrainWithContext.run_append_ctx, List.foldl_cons]
      rfl
    have h5 := DrainWithContext.progress_exit_ctx tr3 _ h0
    rw [← h3] at h5
    exact ((norm_closed (DrainWithContext.norm_ctx (DrainWithContext.inv_run_ctx c _))).2
      (by omega)).1
  · have ht := DrainWithContext.tookCtx_of_unsignalled
      (DrainWithContext.unsignalled_run c tr1 h1) hp
    have ht2 := DrainWithContext.tookCtx_foldl _ h2 tr2 _ hi ht
    rw [← DrainWithContext.run_append_ctx] at ht2
    exact tookCtx_lines (DrainWithContext.norm_ctx (DrainWithContext.inv_run_ctx c _)) ht2
  · have hf : (DrainWithContext.run c (tr1 ++ tr2)).forgetTrigger
        = (DrainWithContext.run c (tr1 ++ dropSignals tr2)).forgetTrigger := by
      rw [DrainWithContext.run_append_ctx, DrainWithContext.run_append_ctx]
      exact forgetTrigger_dropSignals tr2 _ h2
    obtain ⟨a1, a2, a3, a4, a5⟩ :=
      forgetTrigger_observables (DrainWithContext.run c (tr1 ++ tr2))
    obtain ⟨b1, b2, b3, b4, b5⟩ :=
      forgetTrigger_observables (DrainWithContext.run c (tr1 ++ dropSignals tr2))
    refine ⟨hf, ?_,
      (norm_args (DrainWithContext.norm_ctx (DrainWithContext.inv_run_ctx c _))).1,
      ?_, ?_, ?_, ?_⟩
    · rw [← a1, ← b1, hf]
    · rw [← a2, ← b2, hf]
    · rw [← a3, ← b3, hf]
    · rw [← a4, ← b4, hf]
    · rw [← a5, ← b5, hf]

/-- Witness of C6 as amended: `ctx` is cancelled and the listener runs its
`select`; signals raised afterwards change nothing: `Shutdown` is called once
and the line logged for the trigger is the one of `ctx`. -/
theorem cancel_before_signal_witness :
    (DrainWithContext.run none ([.listen false, .listen false, .cancel "context canceled",
      .listen false] ++ [.signal .SIGTERM, .listen false, .listen false,
      .signal .Interrupt])).shutdownArgs.length = 1 ∧
    (DrainWithContext.run none ([.listen false, .listen false, .cancel "context canceled",
      .listen false] ++ [.signal .SIGTERM, .listen false, .listen false,
      .signal .Interrupt])).triggerLines = [.dueToCtx (some "context canceled")] :=
  ⟨((cancel_before_signal none
      [.listen false, .listen false, .cancel "context canceled", .listen false]
      [.signal .SIGTERM, .listen false, .listen false, .signal .Interrupt] [] none
      (by decide) (by decide)).1 (by decide)).1,
    ((cancel_before_signal none
      [.listen false, .listen false, .cancel "context canceled", .listen false]
      [.signal .SIGTERM, .listen false, .listen false, .signal .Interrupt] [] none
      (by decide) (by decide)).2.1 (by decide)).2 (by decide)⟩

/-- Counterexample to C6 as stated: `ctx` is cancelled while `q` is empty and no
signal has been raised; `SIGTERM` arrives afterwards, before the listener runs
its `select`; both cases of the `select` can proceed and it takes the signal.
`Shutdown` is called once, but the line logged for the trigger names the
signal, not the error of `ctx`. -/
theorem cancel_first_but_signal_logged :
    (∀ e ∈ [Event.listen false, .listen false, .cancel "context canceled"],
      e.isNotifiedSignal = false) ∧
    (DrainWithContext.run none [.listen false, .listen false,
      .cancel "context canceled"]).ctxErr = some "context canceled" ∧
    (DrainWithContext.run none [.listen false, .listen false,
      .cancel "context canceled"]).q = none ∧
    (DrainWithContext.run none [.listen false, .listen false, .cancel "context canceled",
      .signal .SIGTERM, .listen false, .listen false, .listen false]).shutdownArgs
        = [Context.background] ∧
    (DrainWithContext.run none [.listen false, .listen false, .cancel "context canceled",
      .signal .SIGTERM, .listen false, .listen false, .listen false]).triggerLines
        = [.dueToSignal .SIGTERM] ∧
    (DrainWithContext.run none [.listen false, .listen false, .cancel "context canceled",
      .signal .SIGTERM, .listen false, .listen false, .listen false]).triggerLines
        ≠ [.dueToCtx (some "context canceled")] ∧
    (DrainWithContext.run none [.listen false, .listen false, .cancel "context canceled",
      .signal .SIGTERM, .listen false, .listen false,
      .listen false]).triggerLines.map LogLine.text
        = ["[graceful] Shutting down due to signal: terminated"] := by
  decide

end Graceful
